import Mathlib

/-!
A formal development of the core of the `brawn` profile-profile multiple
sequence alignment merger.  Python modules are embedded shallowly:

* numbers are modelled as exact rationals (every IEEE float is a rational;
  the transcendental `math.log` only appears behind an explicit oracle
  parameter where a computable model is needed, and as `Real.log` in the
  idealized real-valued model of `distance.py`);
* fallible code returns `Except PyError`;
* in-place mutation (which the code uses only for caches and for the
  terminal-gap rewrite of profile positions) is modelled by explicit
  state passing.

The repository's `brawn/constants.py` is not part of the available source;
definitions taken from it are modelled from the specification (and, where
the repository's tests pin exact values, from those tests) and are marked
`Modelled from the spec:` in their doc comments.
-/

namespace Brawn

/-- The distinct error kinds surfaced by the embedded code.  Python
exception classes are flattened into one inductive; `InvalidCacheFormatError`
and `MismatchedCacheVersionError` are the two dedicated cache errors of
`brawn/alignment.py` (both subclasses of `ValueError` in the source, but
distinguishable by type, which is what matters to callers). -/
inductive PyError where
  | notImplementedError (msg : String)
  | keyError (key : String)
  | typeError (msg : String)
  | valueError (msg : String)
  | invalidCacheFormatError
  | indexError
  | zeroDivisionError
  | mismatchedCacheVersionError (msg : String)
  | assertionError
  deriving DecidableEq, Repr

/-- Result type of fallible embedded code. -/
abbrev Py (α : Type) := Except PyError α

instance {ε α : Type} [DecidableEq ε] [DecidableEq α] : DecidableEq (Except ε α) := by
  intro a b
  cases a with
  | ok x =>
    cases b with
    | ok y =>
      exact if h : x = y then .isTrue (by rw [h]) else
        .isFalse (by intro hh; cases hh; exact h rfl)
    | error f => exact .isFalse (by intro hh; cases hh)
  | error e =>
    cases b with
    | ok y => exact .isFalse (by intro hh; cases hh)
    | error f =>
      exact if h : e = f then .isTrue (by rw [h]) else
        .isFalse (by intro hh; cases hh; exact h rfl)

/-- Structural effectful map over a list (the Python `for` loops that
build a list while possibly raising). -/
def mapPy {α β : Type} (f : α → Py β) : List α → Py (List β)
  | [] => .ok []
  | x :: xs => do
    let y ← f x
    let ys ← mapPy f xs
    return y :: ys

/-- A Python character cell of a stored sequence: `none` models Python's
`None` (the internal absence-of-residue marker for gaps). -/
abbrev PyChar := Option Char

/-- The three alphabets of `brawn/alphabet.py`. -/
inductive Alphabet where
  | AMINO
  | DNA
  | RNA
  deriving DecidableEq, Repr

/-- `Alphabet.get_size` from `brawn/alphabet.py`. -/
def Alphabet.get_size : Alphabet → ℕ
  | .AMINO => 20
  | .DNA => 4
  | .RNA => 4

/-- `AMINO_INDICES` from `brawn/alphabet.py`: enumeration order of the
`RESIDUE_GROUP` dict (A C D E F G H I K L M N P Q R S T V W Y B Z X). -/
def AMINO_INDICES : Char → ℕ
  | 'A' => 0 | 'C' => 1 | 'D' => 2 | 'E' => 3 | 'F' => 4
  | 'G' => 5 | 'H' => 6 | 'I' => 7 | 'K' => 8 | 'L' => 9
  | 'M' => 10 | 'N' => 11 | 'P' => 12 | 'Q' => 13 | 'R' => 14
  | 'S' => 15 | 'T' => 16 | 'V' => 17 | 'W' => 18 | 'Y' => 19
  | 'B' => 20 | 'Z' => 21 | 'X' => 22
  | _ => 26

/-- `DNA_INDICES` from `brawn/alphabet.py`: enumeration order of "GCAT". -/
def DNA_INDICES : Char → ℕ
  | 'G' => 0 | 'C' => 1 | 'A' => 2 | 'T' => 3
  | _ => 4

/-- `is_gap_char` from `brawn/alphabet.py`. -/
def is_gap_char (c : Char) : Bool :=
  ['-', '.'].contains c

/-- `is_wildcard` from `brawn/alphabet.py`.  `None` short-circuits to
`False` before the alphabet dispatch; the `RNA` branch is unhandled and
raises `NotImplementedError`. -/
def is_wildcard (c : PyChar) (alphabet : Alphabet) : Py Bool :=
  match c with
  | none => .ok false
  | some ch =>
    match alphabet with
    | .AMINO => .ok (['B', 'X', 'Z'].contains ch)
    | .DNA => .ok (!(['G', 'A', 'T', 'C'].contains ch))
    | .RNA => .error (.notImplementedError "unhandled alphabet type: 'RNA'")

/-- `is_residue` from `brawn/alphabet.py`.  A falsy character (`None`)
short-circuits to `False`; the `RNA` branch raises `NotImplementedError`. -/
def is_residue (c : PyChar) (alphabet : Alphabet) : Py Bool :=
  match c with
  | none => .ok false
  | some ch =>
    match alphabet with
    | .AMINO => .ok ("ACDEFGHIKLMNPQRSTVWY".toList.contains ch)
    | .DNA => .ok (['G', 'A', 'T', 'C'].contains ch)
    | .RNA => .error (.notImplementedError "unhandled alphabet type: 'RNA'")

/-- The per-character step of `Sequence.from_string`
(`brawn/alignment.py`): gaps become `none`, characters that are neither
residues nor wildcards become the alphabet's wildcard symbol. -/
def sequenceChar (alphabet : Alphabet) (ch : Char) : Py PyChar := do
  let wildcard : Char := if alphabet = .AMINO then 'X' else 'N'
  if is_gap_char ch then
    return none
  else
    let res ← is_residue (some ch) alphabet
    let wild ← is_wildcard (some ch) alphabet
    if !res && !wild then
      return some wildcard
    else
      return some ch

/-- `Sequence.from_string` from `brawn/alignment.py`. -/
def sequenceFromString (line : List Char) (alphabet : Alphabet) : Py (List PyChar) :=
  mapPy (sequenceChar alphabet) line

/-- `Sequence.__str__` from `brawn/alignment.py`: gaps render as "-". -/
def sequenceToString (seq : List PyChar) : List Char :=
  seq.map (fun c => c.getD '-')

/-- Modelled from the spec: `GAP_OPEN` from the missing
`brawn/constants.py`, a negative affine gap-open penalty; its exact value
-2.9 is pinned by the repository's tests (`test_positions.py` asserts `score_gap_open == -1.45`
for columns with `gap_opens == 1`, and `score_gap_open` is
`gap_opens * GAP_OPEN / 2` in `brawn/positions.py`). -/
def GAP_OPEN : ℚ := -29/10

/-- `AlignmentPosition` from `brawn/positions.py`. -/
structure AlignmentPosition where
  sort_order : List ℕ
  base_counts : List ℚ
  scores : List ℚ
  ungapped_weight : ℚ
  gap_opens : ℚ
  gap_closes : ℚ
  score_gap_open : ℚ
  score_gap_close : ℚ
  deriving DecidableEq, Repr

/-- The `AlignmentPosition` constructor together with its
`__post_init__`, which overwrites `score_gap_open` and `score_gap_close`
from the gap weights regardless of any supplied values. -/
def mkAlignmentPosition (sort_order : List ℕ) (base_counts scores : List ℚ)
    (ungapped_weight gap_opens gap_closes : ℚ) : AlignmentPosition :=
  { sort_order := sort_order, base_counts := base_counts, scores := scores,
    ungapped_weight := ungapped_weight, gap_opens := gap_opens,
    gap_closes := gap_closes,
    score_gap_open := gap_opens * GAP_OPEN / 2,
    score_gap_close := gap_closes * GAP_OPEN / 2 }

/-- The state of an `Alignment` object (`brawn/alignment.py`): parsed
sequences keyed by name, the alphabet, and the lazily built caches for
weights and profile positions. -/
structure Alignment where
  names : List String
  seqs : List (List PyChar)
  alphabet : Alphabet
  weights : Option (List ℚ)
  positionsCache : Option (List AlignmentPosition)
  deriving Repr

/-- `Alignment.__init__`: rejects an empty mapping, inconsistent sequence
lengths, and mismatching supplied weight/position counts; hard-codes the
alphabet to `AMINO` and parses every sequence under it.  Note the Python
truthiness checks: an empty supplied weights or positions list skips its
length validation. -/
def alignmentNew (sequence_by_name : List (String × String))
    (weights : Option (List ℚ) := none)
    (positions : Option (List AlignmentPosition) := none) : Py Alignment := do
  if sequence_by_name.isEmpty then
    .error (.valueError "at least one sequence must be provided")
  let col_count := (sequence_by_name.headD ("", "")).2.length
  if !(sequence_by_name.all (fun kv => kv.2.length = col_count)) then
    .error (.valueError "alignment sequences not of consistent length")
  if let some w := weights then
    if !w.isEmpty && w.length ≠ sequence_by_name.length then
      .error (.valueError "number of weights does not match number of sequences")
  if let some p := positions then
    if !p.isEmpty && p.length ≠ col_count then
      .error (.valueError "number of positions does not match sequence length")
  let alphabet := Alphabet.AMINO
  let seqs ← mapPy (fun kv => sequenceFromString kv.2.toList alphabet) sequence_by_name
  return { names := sequence_by_name.map Prod.fst, seqs := seqs,
           alphabet := alphabet, weights := weights, positionsCache := positions }

/-- Adds `v` to entry `i` of a counts list (`counts[i] += v`). -/
def bumpAt (counts : List ℚ) (i : ℕ) (v : ℚ) : List ℚ :=
  counts.set i (counts.getD i 0 + v)

/-- The per-sequence loop body of `Alignment.get_fractional_weighted_counts`
(`brawn/alignment.py`): gaps are skipped, wildcards are spread (B over D/N,
Z over E/Q, other amino wildcards over all 20 slots; R over G/A, Y over C/T,
other DNA wildcards over `weight / 20` — the divisor 20 is deliberate),
canonical residues add the full sequence weight. -/
def countsStep (alphabet : Alphabet) (col : ℕ) (acc : List ℚ × ℚ)
    (sw : List PyChar × ℚ) : Py (List ℚ × ℚ) := do
  let (counts, total_weight) := acc
  let (seq, weight) := sw
  match seq.getD col none with
  | none => return (counts, total_weight)
  | some ch =>
    let wild ← is_wildcard (some ch) alphabet
    let counts ←
      if wild then
        match alphabet with
        | .AMINO =>
          if ch = 'B' then
            .ok (bumpAt (bumpAt counts (AMINO_INDICES 'D') (weight / 2))
                  (AMINO_INDICES 'N') (weight / 2))
          else if ch = 'Z' then
            .ok (bumpAt (bumpAt counts (AMINO_INDICES 'E') (weight / 2))
                  (AMINO_INDICES 'Q') (weight / 2))
          else
            .ok (counts.map (· + weight / (alphabet.get_size : ℚ)))
        | .DNA | .RNA =>
          if ch = 'R' then
            .ok (bumpAt (bumpAt counts (DNA_INDICES 'G') (weight / 2))
                  (DNA_INDICES 'A') (weight / 2))
          else if ch = 'Y' then
            .ok (bumpAt (bumpAt counts (DNA_INDICES 'C') (weight / 2))
                  (DNA_INDICES 'T') (weight / 2))
          else
            .ok (counts.map (· + weight / 20))
      else
        match alphabet with
        | .AMINO => .ok (bumpAt counts (AMINO_INDICES ch) weight)
        | _ => .ok (bumpAt counts (DNA_INDICES ch) weight)
    return (counts, total_weight + weight)

/-- `Alignment.get_fractional_weighted_counts` from `brawn/alignment.py`,
with the alignment's (cached or freshly built) sequence weights passed
explicitly.  After the accumulation loop the counts are divided by the
total residue weight when it is non-zero (the code also asserts the total
never exceeds 1.001). -/
def get_fractional_weighted_counts (alphabet : Alphabet)
    (seqs : List (List PyChar)) (weights : List ℚ) (col : ℕ) : Py (List ℚ) := do
  let init : List ℚ := List.replicate alphabet.get_size 0
  let (counts, total_weight) ← (seqs.zip weights).foldlM (countsStep alphabet col) (init, 0)
  if total_weight ≠ 0 then
    if total_weight > 1001/1000 then
      .error .assertionError
    else
      return counts.map (· / total_weight)
  else
    return counts

/-- The 181-entry precomputed Kimura lookup table `_KIMURA_TABLE` from
`brawn/distance.py`, embedded verbatim as exact rationals. -/
def KIMURA_TABLE : List ℚ := [
    1.95, 1.96, 1.97, 1.98, 1.99, 2.00, 2.00, 2.01, 2.02, 2.03,
    2.04, 2.05, 2.06, 2.07, 2.08, 2.09, 2.09, 2.10, 2.11, 2.12,
    2.13, 2.14, 2.15, 2.16, 2.17, 2.18, 2.19, 2.20, 2.21, 2.22,
    2.23, 2.24, 2.26, 2.27, 2.28, 2.29, 2.30, 2.31, 2.32, 2.33,
    2.34, 2.36, 2.37, 2.38, 2.39, 2.40, 2.41, 2.43, 2.44, 2.45,
    2.46, 2.48, 2.49, 2.50, 2.52, 2.53, 2.54, 2.55, 2.57, 2.58,
    2.60, 2.61, 2.62, 2.64, 2.65, 2.67, 2.68, 2.70, 2.71, 2.73,
    2.74, 2.76, 2.77, 2.79, 2.81, 2.82, 2.84, 2.85, 2.87, 2.89,
    2.91, 2.92, 2.94, 2.96, 2.98, 2.99, 3.01, 3.03, 3.05, 3.07,
    3.09, 3.11, 3.13, 3.15, 3.17, 3.19, 3.21, 3.23, 3.25, 3.28,
    3.30, 3.32, 3.35, 3.37, 3.39, 3.42, 3.44, 3.47, 3.49, 3.52,
    3.54, 3.57, 3.60, 3.62, 3.65, 3.68, 3.71, 3.74, 3.77, 3.80,
    3.83, 3.86, 3.89, 3.93, 3.96, 3.99, 4.03, 4.07, 4.10, 4.14,
    4.18, 4.22, 4.26, 4.30, 4.34, 4.38, 4.42, 4.47, 4.51, 4.56,
    4.61, 4.66, 4.71, 4.76, 4.82, 4.87, 4.93, 4.98, 5.04, 5.11,
    5.17, 5.24, 5.31, 5.38, 5.45, 5.53, 5.60, 5.69, 5.77, 5.86,
    5.95, 6.05, 6.15, 6.26, 6.37, 6.49, 6.61, 6.75, 6.88, 7.03,
    7.19, 7.36, 7.54, 7.75, 7.96, 8.19, 8.45, 8.74, 9.07, 9.45,
    9.88]

/-- Python list indexing on `_KIMURA_TABLE`: non-negative indices in
range read directly, negative indices within range wrap around from the
end, anything else raises `IndexError`. -/
def kimuraTableGet (i : ℤ) : Py ℚ :=
  if 0 ≤ i ∧ i < 181 then .ok (KIMURA_TABLE.getD i.toNat 0)
  else if -181 ≤ i ∧ i < 0 then .ok (KIMURA_TABLE.getD (181 + i).toNat 0)
  else .error .indexError

/-- `calculate_distance` from `brawn/distance.py`, in the idealized
real-number model of float arithmetic: the full Kimura correction below
0.75 difference, the constant 10.0 above 0.93, and the table lookup in
between. -/
noncomputable def calculate_distance (similarity : ℝ) : Py ℝ :=
  let diff := 1 - similarity
  if diff < 3/4 then .ok (-Real.log (1 - diff - diff^2 / 5))
  else if diff > 93/100 then .ok 10
  else (kimuraTableGet ⌊(diff - 3/4) * 1000 + 1/2⌋).map (fun q => (q : ℝ))



/-- Modelled from the spec: `LENGTH_GUARD` from the missing
`brawn/constants.py`, a sentinel for absent/unset edge lengths (the reference value behaves as
infinity); any value beyond legitimate edge lengths serves the sentinel
role, and no theorem here depends on the exact choice. -/
def LENGTH_GUARD : ℚ := 10^9

/-- `Tree` from `brawn/tree.py`: a binary tree over parallel arrays.
Absent node indices (`ID_GUARD` in the source) are modelled as `none`;
absent lengths hold the modelled `LENGTH_GUARD` value.  `leaf_count` is
derived exactly as `__post_init__` sets it. -/
structure Tree where
  node_count : ℕ
  parents : List (Option ℕ)
  lefts : List (Option ℕ)
  rights : List (Option ℕ)
  left_lengths : List ℚ
  right_lengths : List ℚ
  parent_lengths : List ℚ
  names : List String
  root_node_index : ℕ
  deriving Repr

/-- `Tree.leaf_count`, as computed by `Tree.__post_init__`
(`(node_count + 1) // 2`). -/
def Tree.leaf_count (t : Tree) : ℕ :=
  (t.node_count + 1) / 2

/-- `Tree.get_parent` from `brawn/tree.py`: reads the parent index and
asserts it lies in `[0, node_count)`; a sentinel (absent) parent fails
the assertion. -/
def Tree.get_parent (t : Tree) (index : ℕ) : Py ℕ :=
  match t.parents.getD index none with
  | some p => if p < t.node_count then .ok p else .error .assertionError
  | none => .error .assertionError

/-- `Tree.is_leaf` from `brawn/tree.py`. -/
def Tree.is_leaf (t : Tree) (index : ℕ) : Py Bool :=
  if index < t.node_count then
    .ok (t.node_count = 1 ∨ (t.lefts.getD index none = none ∧ t.rights.getD index none = none))
  else
    .error .assertionError

/-- `Tree.get_edge_length` from `brawn/tree.py`: the length to a left
child, right child, or parent, in that order of checks. -/
def Tree.get_edge_length (t : Tree) (first second : ℕ) : Py ℚ :=
  if t.lefts.getD first none = some second then
    .ok (t.left_lengths.getD first LENGTH_GUARD)
  else if t.rights.getD first none = some second then
    .ok (t.right_lengths.getD first LENGTH_GUARD)
  else if t.parents.getD first none ≠ some second then
    .error (.valueError "Nodes are not neighbours")
  else
    .ok (t.parent_lengths.getD first LENGTH_GUARD)

/-- The recursive `find_count` helper of `Tree.node_child_counts`
(`brawn/tree.py`), with the mutated `leaves_under_node` list threaded
explicitly and a fuel argument bounding the recursion depth (the source
recursion terminates because children precede their parents; exhausted
fuel is modelled as an error and never occurs on such trees). -/
def findCount (t : Tree) : ℕ → ℕ → List ℕ → Py (List ℕ × ℕ)
  | 0, _, _ => .error .assertionError
  | fuel + 1, index, acc => do
    if t.node_count = 1 then
      return (acc, 1)
    let leaf ← t.is_leaf index
    if leaf then
      return (acc.set index 1, 1)
    else
      match t.lefts.getD index none, t.rights.getD index none with
      | some left, some right => do
        let (acc, left_count) ← findCount t fuel left acc
        let (acc, right_count) ← findCount t fuel right acc
        let count := left_count + right_count
        return (acc.set index count, count)
      | _, _ => .error .indexError

/-- `Tree.node_child_counts` from `brawn/tree.py`: the number of leaves
under each node, filled in by `find_count` from the root. -/
def Tree.node_child_counts (t : Tree) : Py (List ℕ) := do
  let init := List.replicate t.node_count 0
  let (acc, _) ← findCount t t.node_count t.root_node_index init
  return acc

/-- The strengths loop of `Tree.get_weights` (`brawn/tree.py`): for each
node, the edge length to its parent divided by the number of leaves under
it (the root contributes strength 0); division by a zero leaf count is a
Python `ZeroDivisionError`. -/
def Tree.strengths (t : Tree) (counts : List ℕ) : Py (List ℚ) :=
  mapPy (fun i =>
    if t.root_node_index = i then .ok 0
    else do
      let parent ← t.get_parent i
      let length ← t.get_edge_length i parent
      let leaves := counts.getD i 0
      if leaves = 0 then .error .zeroDivisionError
      else .ok (length / (leaves : ℚ))) (List.range t.node_count)

/-- The per-leaf `while node != root` walk of `Tree.get_weights`
(`brawn/tree.py`): sums the strengths along the path from a leaf to the
root.  Fuel bounds the walk; on trees whose parent indices increase the
walk always terminates within `node_count` steps. -/
def walkWeight (t : Tree) (strengths : List ℚ) : ℕ → ℕ → Py ℚ
  | 0, _ => .error .assertionError
  | fuel + 1, node =>
    if node = t.root_node_index then .ok 0
    else do
      let parent ← t.get_parent node
      let rest ← walkWeight t strengths fuel parent
      return strengths.getD node 0 + rest

/-- `_normalise` from `brawn/tree.py`: divides by the total (a Python
`ZeroDivisionError` when the total is zero). -/
def normalise (values : List ℚ) : Py (List ℚ) :=
  if values.sum = 0 then .error .zeroDivisionError
  else .ok (values.map (· / values.sum))

/-- `Tree.get_weights` from `brawn/tree.py`: special cases for 0, 1 and 2
leaves, otherwise normalised per-leaf strength path sums with the 1e-4
degenerate-tree guard. -/
def Tree.get_weights (t : Tree) : Py (List ℚ) :=
  if t.leaf_count = 0 then .ok []
  else if t.leaf_count = 1 then .ok [1]
  else if t.leaf_count = 2 then .ok [1/2, 1/2]
  else do
    let counts ← t.node_child_counts
    let strengths ← t.strengths counts
    let raws ← mapPy (walkWeight t strengths t.node_count) (List.range t.leaf_count)
    normalise (raws.map (fun w => if w < 1/10000 then 1 else w))



/-- `Modification` from `brawn/path.py`: the three path edge kinds. -/
inductive Modification where
  | MATCH
  | DELETION
  | INSERTION
  deriving DecidableEq, Repr

/-- `Edge` from `brawn/path.py`: an edge kind plus the number of query and
reference positions consumed up to and including the edge. -/
structure Edge where
  type : Modification
  query_length : ℤ
  reference_length : ℤ
  deriving DecidableEq, Repr

/-- The `Edge` constructor (also `Edge.copy`): `__post_init__` asserts both
counters are non-negative. -/
def mkEdge (type : Modification) (query_length reference_length : ℤ) : Py Edge :=
  if 0 ≤ query_length ∧ 0 ≤ reference_length then
    .ok { type := type, query_length := query_length, reference_length := reference_length }
  else
    .error .assertionError

/-- The traceback bit constants of `brawn/align.py`. -/
def BIT_MM : ℕ := 0x00

/-- `BIT_DM` from `brawn/align.py`. -/
def BIT_DM : ℕ := 0x01

/-- `BIT_IM` from `brawn/align.py`. -/
def BIT_IM : ℕ := 0x02

/-- `BIT__M` from `brawn/align.py` (mask of the match-predecessor field). -/
def BIT_M_MASK : ℕ := 0x03

/-- `BIT_DD` from `brawn/align.py`. -/
def BIT_DD : ℕ := 0x00

/-- `BIT_MD` from `brawn/align.py`. -/
def BIT_MD : ℕ := 0x04

/-- `BIT__D` from `brawn/align.py` (mask of the delete-predecessor field). -/
def BIT_D_MASK : ℕ := 0x04

/-- `BIT_II` from `brawn/align.py`. -/
def BIT_II : ℕ := 0x00

/-- `BIT_MI` from `brawn/align.py`. -/
def BIT_MI : ℕ := 0x08

/-- `BIT__I` from `brawn/align.py` (mask of the insert-predecessor field). -/
def BIT_I_MASK : ℕ := 0x08

/-- `get_modification` from `brawn/align.py`: decodes the predecessor edge
kind from a packed traceback cell, using the 2-bit field selected by the
previous edge kind. -/
def get_modification (bits : ℕ) (previous : Modification) : Py Modification :=
  match previous with
  | .MATCH =>
    let val := bits &&& BIT_M_MASK
    if val = BIT_MM then .ok .MATCH
    else if val = BIT_DM then .ok .DELETION
    else if val = BIT_IM then .ok .INSERTION
    else .error (.valueError "incompatible matrix value for match")
  | .DELETION =>
    let val := bits &&& BIT_D_MASK
    if val = BIT_MD then .ok .MATCH
    else if val = BIT_DD then .ok .DELETION
    else .error (.valueError "incompatible matrix value for deletion")
  | .INSERTION =>
    let val := bits &&& BIT_I_MASK
    if val = BIT_MI then .ok .MATCH
    else if val = BIT_II then .ok .INSERTION
    else .error (.valueError "incompatible matrix value for insertion")

/-- Reading `traceback[i][j]`.  The counters read here are non-negative
(each `Edge` asserts this on construction), so Python's negative-index
wrap-around is unreachable; an out-of-range read is an `IndexError`. -/
def tbRead (tb : List (List ℕ)) (i j : ℤ) : Py ℕ :=
  if 0 ≤ i ∧ i < tb.length ∧ 0 ≤ j ∧ j < ((tb.getD i.toNat []).length : ℤ) then
    .ok ((tb.getD i.toNat []).getD j.toNat 0)
  else
    .error .indexError

/-- The query positions consumed by one edge kind (1 for M and D): the
source decrements `query_length` exactly for MATCH and DELETION edges. -/
def queryStep : Modification → ℤ
  | .MATCH => 1
  | .DELETION => 1
  | .INSERTION => 0

/-- The reference positions consumed by one edge kind (1 for M and I): the
source decrements `reference_length` exactly for MATCH and INSERTION
edges. -/
def referenceStep : Modification → ℤ
  | .MATCH => 1
  | .DELETION => 0
  | .INSERTION => 1

/-- The `while True` loop of `build_path` (`brawn/align.py`), with the
accumulated edge list kept in reverse append order (so the returned list
is already `edges[::-1]`).  Each iteration decreases the sum of the two
counters by at least one, so the fuel argument (one more than that sum at
entry) never runs out; exhausted fuel is modelled as an error. -/
def buildPathLoop (traceback : List (List ℕ)) :
    ℕ → Edge → List Edge → Py (List Edge)
  | 0, _, _ => .error .assertionError
  | fuel + 1, edge, edges => do
    let bits ← tbRead traceback edge.query_length edge.reference_length
    let next_edge_type ← get_modification bits edge.type
    if edge.query_length - queryStep edge.type = 0 ∧
        edge.reference_length - referenceStep edge.type = 0 then
      return edges
    else do
      let e ← mkEdge next_edge_type (edge.query_length - queryStep edge.type)
        (edge.reference_length - referenceStep edge.type)
      buildPathLoop traceback fuel e (e :: edges)

/-- `build_path` from `brawn/align.py`: starts from the most distant cell
with the given final edge kind and walks the traceback back to the origin,
returning the edges ordered from the beginning of the sequences. -/
def build_path (traceback : List (List ℕ)) (query_length reference_length : ℤ)
    (last_edge : Modification) : Py (List Edge) := do
  let edge ← mkEdge last_edge query_length reference_length
  buildPathLoop traceback ((query_length + reference_length).toNat + 1) edge [edge]


/-- Modelled from the spec: `SCORE_GUARD` from the missing
`brawn/constants.py`, a large negative sentinel marking unreachable DP
cells, large enough in
magnitude that no legitimate path sum can reach it. -/
def SCORE_GUARD : ℚ := -(10^9)

/-- A placeholder `AlignmentPosition` used as the default of total list
reads; it never appears in any list the embedded code builds. -/
def dummyPosition : AlignmentPosition :=
  mkAlignmentPosition [] [] [] 0 0 0

/-- The first-position rewrite of `set_terminal_gaps`
(`brawn/positions.py`): zero `score_gap_open` unless it is the guard. -/
def terminalOpenUpdate (p : AlignmentPosition) : AlignmentPosition :=
  if p.score_gap_open ≠ SCORE_GUARD then { p with score_gap_open := 0 } else p

/-- The last-position rewrite of `set_terminal_gaps`
(`brawn/positions.py`): zero `score_gap_close` — while guarding on
`score_gap_open`, exactly as the source does. -/
def terminalCloseUpdate (p : AlignmentPosition) : AlignmentPosition :=
  if p.score_gap_open ≠ SCORE_GUARD then { p with score_gap_close := 0 } else p

/-- Applies a function to the last element of a list. -/
def updateLast (f : AlignmentPosition → AlignmentPosition) :
    List AlignmentPosition → List AlignmentPosition
  | [] => []
  | [p] => [f p]
  | p :: rest => p :: updateLast f rest

/-- `set_terminal_gaps` from `brawn/positions.py`.  The source mutates the
first and (when the list has more than one element) last positions in
place; here the updated list is returned.  With a single position only the
`score_gap_open` rewrite applies. -/
def set_terminal_gaps : List AlignmentPosition → List AlignmentPosition
  | [] => []
  | [p] => [terminalOpenUpdate p]
  | p :: rest => terminalOpenUpdate p :: updateLast terminalCloseUpdate rest

/-- Descending insertion into a list sorted by the key `(value, -index)`
in Python's tuple order. -/
def insertDesc (x : ℕ × ℚ) : List (ℕ × ℚ) → List (ℕ × ℚ)
  | [] => [x]
  | y :: ys =>
    if x.2 > y.2 ∨ (x.2 = y.2 ∧ x.1 ≤ y.1) then x :: y :: ys
    else y :: insertDesc x ys

/-- Sorting by the key `(value, -index)` descending.  The keys of distinct
enumerated entries are distinct, so this insertion sort produces the same
list as Python's `sorted(..., key=lambda x: (x[1], -x[0]), reverse=True)`. -/
def sortPairsDesc : List (ℕ × ℚ) → List (ℕ × ℚ)
  | [] => []
  | x :: xs => insertDesc x (sortPairsDesc xs)

/-- `get_indices_by_decreasing_value` from `brawn/alignment.py`. -/
def get_indices_by_decreasing_value (values : List ℚ) : List ℕ :=
  (sortPairsDesc values.enum).map Prod.fst

/-- `Alignment.get_column_ungapped_weight` from `brawn/alignment.py`: the
total weight of sequences with a gap in the column (the name notwithstanding). -/
def get_column_ungapped_weight (seqs : List (List PyChar)) (weights : List ℚ)
    (column : ℕ) : ℚ :=
  ((seqs.zip weights).map (fun sw =>
    if sw.1.getD column none = none then sw.2 else 0)).sum

/-- `Alignment.get_gap_open_weight_total` from `brawn/alignment.py`. -/
def get_gap_open_weight_total (seqs : List (List PyChar)) (weights : List ℚ)
    (column : ℕ) : ℚ :=
  if column < 1 then
    ((seqs.zip weights).map (fun sw =>
      if sw.1.getD column none = none then sw.2 else 0)).sum
  else
    ((seqs.zip weights).map (fun sw =>
      if sw.1.getD column none = none ∧ sw.1.getD (column - 1) none ≠ none
      then sw.2 else 0)).sum

/-- `Alignment.get_gap_close_weight_total` from `brawn/alignment.py`. -/
def get_gap_close_weight_total (seqs : List (List PyChar)) (weights : List ℚ)
    (col_count column : ℕ) : ℚ :=
  if col_count - 1 = column then
    ((seqs.zip weights).map (fun sw =>
      if sw.1.getD column none = none then sw.2 else 0)).sum
  else
    ((seqs.zip weights).map (fun sw =>
      if sw.1.getD column none = none ∧ sw.1.getD (column + 1) none ≠ none
      then sw.2 else 0)).sum

/-- Modelled from the spec: `AMINO_SCORE_MATRIX` lives in the missing
`brawn/constants.py`.  The repository's tests pin its columns for the
residues D, G, K, T, V (`test_positions.py` asserts the `scores` vectors
of unit-count profile columns, and such a vector equals a matrix column);
those five columns are embedded verbatim, and every other entry — which
no theorem here reads — is zero. -/
def AMINO_SCORE_MATRIX_MODEL : List (List ℚ) := [
    [0, 0, 827040017/1000000000, 0, 0, 109860003/100000000, 0, 0, 406064987/500000000, 0, 0, 0, 0, 0, 0, 0, 120372999/100000000, 52977997/50000000, 0, 0],
    [0, 0, 398620009/1000000000, 0, 0, 81926249/125000000, 0, 0, 232069999/500000000, 0, 0, 0, 0, 0, 0, 0, 990689993/1000000000, 60802001/50000000, 0, 0],
    [0, 0, 418833017/100000000, 0, 0, 181874001/200000000, 0, 0, 25847751/25000000, 0, 0, 0, 0, 0, 0, 0, 440955013/500000000, 217785001/500000000, 0, 0],
    [0, 0, 51712501/25000000, 0, 0, 385915011/500000000, 0, 0, 67994499/50000000, 0, 0, 0, 0, 0, 0, 0, 22033/25000, 135117501/250000000, 0, 0],
    [0, 0, 62985003/250000000, 0, 0, 150700003/500000000, 0, 0, 92672497/250000000, 0, 0, 0, 0, 0, 0, 0, 142930001/250000000, 456279993/500000000, 0, 0],
    [0, 0, 181874001/200000000, 0, 0, 281414509/50000000, 0, 0, 27149601/40000000, 0, 0, 0, 0, 0, 0, 0, 342175007/500000000, 203639999/500000000, 0, 0],
    [0, 0, 50808501/50000000, 0, 0, 641910017/1000000000, 0, 0, 20764401/20000000, 0, 0, 0, 0, 0, 0, 0, 417715013/500000000, 548169971/1000000000, 0, 0],
    [0, 0, 328599989/1000000000, 0, 0, 284319997/1000000000, 0, 0, 123274997/250000000, 0, 0, 0, 0, 0, 0, 0, 220420003/250000000, 23736701/10000000, 0, 0],
    [0, 0, 25847751/25000000, 0, 0, 27149601/40000000, 0, 0, 27288301/10000000, 0, 0, 0, 0, 0, 0, 0, 115912497/125000000, 69333747/125000000, 0, 0],
    [0, 0, 156499997/500000000, 0, 0, 305489987/1000000000, 0, 0, 527390003/1000000000, 0, 0, 0, 0, 0, 0, 0, 699240029/1000000000, 30074401/20000000, 0, 0],
    [0, 0, 84996003/200000000, 0, 0, 377389997/1000000000, 0, 0, 682439983/1000000000, 0, 0, 0, 0, 0, 0, 0, 877590001/1000000000, 71371001/50000000, 0, 0],
    [0, 0, 180887997/100000000, 0, 0, 101012003/100000000, 0, 0, 115671003/100000000, 0, 0, 0, 0, 0, 0, 0, 55625999/50000000, 506030023/1000000000, 0, 0],
    [0, 0, 813069999/1000000000, 0, 0, 608510017/1000000000, 0, 0, 414555013/500000000, 0, 0, 0, 0, 0, 0, 0, 166027999/200000000, 56795001/100000000, 0, 0],
    [0, 0, 30010751/25000000, 0, 0, 164989993/250000000, 0, 0, 75666499/50000000, 0, 0, 0, 0, 0, 0, 0, 37241199/40000000, 610849977/1000000000, 0, 0],
    [0, 0, 79640001/125000000, 0, 0, 318300009/500000000, 0, 0, 14595063/6250000, 0, 0, 0, 0, 0, 0, 0, 201682493/250000000, 514219999/1000000000, 0, 0],
    [0, 0, 51500499/50000000, 0, 0, 51723999/50000000, 0, 0, 938579977/1000000000, 0, 0, 0, 0, 0, 0, 0, 30582199/20000000, 338835001/500000000, 0, 0],
    [0, 0, 440955013/500000000, 0, 0, 342175007/500000000, 0, 0, 115912497/125000000, 0, 0, 0, 0, 0, 0, 0, 129110503/50000000, 61688751/62500000, 0, 0],
    [0, 0, 217785001/500000000, 0, 0, 203639999/500000000, 0, 0, 69333747/125000000, 0, 0, 0, 0, 0, 0, 0, 61688751/62500000, 26558001/10000000, 0, 0],
    [0, 0, 263130009/1000000000, 0, 0, 360339999/1000000000, 0, 0, 399439991/1000000000, 0, 0, 0, 0, 0, 0, 0, 78852497/250000000, 86838001/200000000, 0, 0],
    [0, 0, 379469991/1000000000, 0, 0, 178395003/500000000, 0, 0, 262744993/500000000, 0, 0, 0, 0, 0, 0, 0, 289770007/500000000, 31902501/50000000, 0, 0]]

/-- `Alignment._build_positions` from `brawn/alignment.py`, with the score
matrix and the alignment's sequence weights passed explicitly: per column,
fractional weighted counts, the descending sort order, the dot products
with each matrix row, and the sign-inverted gap/ungapped weights (whose
`__post_init__` derives the gap open/close scores). -/
def build_positions (score_matrix : List (List ℚ)) (alphabet : Alphabet)
    (seqs : List (List PyChar)) (weights : List ℚ) (col_count : ℕ) :
    Py (List AlignmentPosition) :=
  mapPy (fun column => do
    let counts ← get_fractional_weighted_counts alphabet seqs weights column
    let sort_order := get_indices_by_decreasing_value counts
    let scores := (List.range alphabet.get_size).map (fun i =>
      ((counts.zip (score_matrix.getD i [])).map (fun cv => cv.1 * cv.2)).sum)
    return mkAlignmentPosition sort_order counts scores
      (1 - get_column_ungapped_weight seqs weights column)
      (1 - get_gap_open_weight_total seqs weights column)
      (1 - get_gap_close_weight_total seqs weights col_count column))
    (List.range col_count)


/-- The six fields of an `AlignmentPosition` that `set_terminal_gaps`
never touches, bundled for frame statements. -/
def staticFields (p : AlignmentPosition) :
    List ℕ × List ℚ × List ℚ × ℚ × ℚ × ℚ :=
  (p.sort_order, p.base_counts, p.scores, p.ungapped_weight, p.gap_opens, p.gap_closes)


/-- `Alignment.get_percentage_identity_pair` from `brawn/alignment.py`:
the fraction of equal characters over columns where neither sequence has
a gap (0 when no such column exists). -/
def get_percentage_identity_pair (seqs : List (List PyChar)) (i j : ℕ) : ℚ :=
  let pairs := (seqs.getD i []).zip (seqs.getD j [])
  let counted := pairs.filter (fun ab => ab.1.isSome && ab.2.isSome)
  let same := counted.filter (fun ab => ab.1 = ab.2)
  if counted.length = 0 then 0 else (same.length : ℚ) / (counted.length : ℚ)

/-- Modelled from the spec: the float `math.log` used by
`calculate_distance` is transcendental, so the computable rational model
of the tree pipeline takes a log oracle `lg` as a parameter (a float log
result is itself a rational). -/
def calculateDistanceQ (lg : ℚ → ℚ) (similarity : ℚ) : Py ℚ :=
  let diff := 1 - similarity
  if diff < 3/4 then .ok (-(lg (1 - diff - diff^2 / 5)))
  else if diff > 93/100 then .ok 10
  else kimuraTableGet ⌊(diff - 3/4) * 1000 + 1/2⌋

/-- `get_flat_index` from `tree_from_alignment` (`brawn/alignment.py`):
2D triangular-matrix index to flat index. -/
def get_flat_index (i j : ℕ) : ℕ :=
  if i ≥ j then i * (i - 1) / 2 + j else j * (j - 1) / 2 + i

/-- The mutable state of the clustering loop of `tree_from_alignment`
(`brawn/alignment.py`), with `ID_GUARD` entries modelled as `none` and
`LENGTH_GUARD` as the modelled sentinel rational. -/
structure ClusterState where
  distances : List ℚ
  nodeIndices : List (Option ℕ)
  nearest : List (Option ℕ)
  minDists : List ℚ
  lefts : List (Option ℕ)
  rights : List (Option ℕ)
  heights : List ℚ
  leftLens : List ℚ
  rightLens : List ℚ
  deriving Repr

/-- The initial pairwise-distance loop of `tree_from_alignment`: fills the
triangular distance matrix and each leaf's current nearest neighbour and
minimum distance. -/
def initDistances (lg : ℚ → ℚ) (seqs : List (List PyChar)) (leaf_count : ℕ)
    (st : ClusterState) : Py ClusterState := do
  (List.range leaf_count).foldlM (fun st i => do
    if i = 0 then
      return st
    else
      let row_start := get_flat_index i 0
      let st ← (List.range i).foldlM (fun (st : ClusterState) j => do
        let d ← calculateDistanceQ lg (get_percentage_identity_pair seqs i j)
        return { st with distances := st.distances.set (row_start + j) d }) st
      return (List.range i).foldl (fun (st : ClusterState) j =>
        let distance := st.distances.getD (row_start + j) 0
        let st :=
          if distance < st.minDists.getD i LENGTH_GUARD then
            { st with minDists := st.minDists.set i distance,
                      nearest := st.nearest.set i (some j) }
          else st
        if distance < st.minDists.getD j LENGTH_GUARD then
          { st with minDists := st.minDists.set j distance,
                    nearest := st.nearest.set j (some i) }
        else st) st) st

/-- One merge iteration of the clustering loop of `tree_from_alignment`:
picks the active slot with the smallest nearest-neighbour distance, merges
it with its partner into a new internal node, re-blends distances with
`0.1 * mean + 0.9 * min`, reuses the left slot and deactivates the right. -/
def clusterStep (leaf_count : ℕ) (internal_node_index : ℕ) (st : ClusterState) :
    Py ClusterState := do
  let found := (List.range leaf_count).foldl
    (fun (acc : Option ℕ × Option ℕ × ℚ) j =>
      if (st.nodeIndices.getD j none).isNone then acc
      else if st.minDists.getD j LENGTH_GUARD < acc.2.2 then
        (some j, st.nearest.getD j none, st.minDists.getD j LENGTH_GUARD)
      else acc)
    (none, none, LENGTH_GUARD)
  let left_min ← match found.1 with
    | some v => .ok v
    | none => .error .assertionError
  let right_min ← match found.2.1 with
    | some v => .ok v
    | none => .error .assertionError
  let blended := (List.range leaf_count).foldl
    (fun (acc : ClusterState × ℚ × Option ℕ) j =>
      let (st, new_min_dist, new_nearest) := acc
      if j = left_min ∨ j = right_min then acc
      else if (st.nodeIndices.getD j none).isNone then acc
      else
        let left_index := get_flat_index left_min j
        let distance_left := st.distances.getD left_index 0
        let distance_right := st.distances.getD (get_flat_index right_min j) 0
        let new_dist := 1/10 * ((distance_left + distance_right) / 2)
          + 9/10 * min distance_left distance_right
        let st :=
          if st.nearest.getD j none = some right_min then
            { st with nearest := st.nearest.set j (some left_min) }
          else st
        let st := { st with distances := st.distances.set left_index new_dist }
        if new_dist < new_min_dist then (st, new_dist, some j)
        else (st, new_min_dist, new_nearest))
    (st, LENGTH_GUARD, none)
  let (st, new_min_dist, new_nearest) := blended
  if ¬(internal_node_index < leaf_count - 1 ∨ new_min_dist ≠ LENGTH_GUARD) then
    .error .assertionError
  if ¬(internal_node_index < leaf_count - 1 ∨ new_nearest ≠ none) then
    .error .assertionError
  let new_height := st.distances.getD (get_flat_index left_min right_min) 0 / 2
  let left ← match st.nodeIndices.getD left_min none with
    | some v => .ok v
    | none => .error .indexError
  let right ← match st.nodeIndices.getD right_min none with
    | some v => .ok v
    | none => .error .indexError
  let height_left := if left < leaf_count then 0 else st.heights.getD (left - leaf_count) 0
  let height_right := if right < leaf_count then 0 else st.heights.getD (right - leaf_count) 0
  let st := { st with
    lefts := st.lefts.set internal_node_index (some left),
    rights := st.rights.set internal_node_index (some right),
    leftLens := st.leftLens.set internal_node_index (new_height - height_left),
    rightLens := st.rightLens.set internal_node_index (new_height - height_right),
    heights := st.heights.set internal_node_index new_height,
    nodeIndices := (st.nodeIndices.set left_min
      (some (leaf_count + internal_node_index))).set right_min none,
    nearest := st.nearest.set left_min new_nearest,
    minDists := st.minDists.set left_min new_min_dist }
  return st

/-- `tree_from_alignment` from `brawn/alignment.py`: UPGMA-like hybrid
clustering of the alignment's sequences into a rooted binary tree, then a
single pass filling the parent arrays. -/
def tree_from_alignment (lg : ℚ → ℚ) (names : List String)
    (seqs : List (List PyChar)) : Py Tree := do
  let leaf_count := seqs.length
  let internal_node_count := leaf_count - 1
  let st0 : ClusterState := {
    distances := List.replicate (leaf_count * internal_node_count / 2) 0,
    nodeIndices := (List.range leaf_count).map some,
    nearest := List.replicate leaf_count none,
    minDists := List.replicate leaf_count LENGTH_GUARD,
    lefts := List.replicate internal_node_count none,
    rights := List.replicate internal_node_count none,
    heights := List.replicate internal_node_count LENGTH_GUARD,
    leftLens := List.replicate internal_node_count LENGTH_GUARD,
    rightLens := List.replicate internal_node_count LENGTH_GUARD }
  let st ← initDistances lg seqs leaf_count st0
  let st ← (List.range internal_node_count).foldlM
    (fun st idx => clusterStep leaf_count idx st) st
  let node_count := 2 * leaf_count - 1
  let root := node_count - 1
  let lefts := List.replicate leaf_count (none : Option ℕ) ++ st.lefts
  let rights := List.replicate leaf_count (none : Option ℕ) ++ st.rights
  let left_lengths := List.replicate leaf_count LENGTH_GUARD ++ st.leftLens
  let right_lengths := List.replicate leaf_count LENGTH_GUARD ++ st.rightLens
  let filled := (List.range node_count).foldl
    (fun (acc : List (Option ℕ) × List ℚ) i =>
      if i < leaf_count then acc
      else
        let (parents, parent_lengths) := acc
        match lefts.getD i none, rights.getD i none with
        | some left, some right =>
          ((parents.set left (some i)).set right (some i),
           (parent_lengths.set left (left_lengths.getD i LENGTH_GUARD)).set right
             (right_lengths.getD i LENGTH_GUARD))
        | _, _ => acc)
    (List.replicate node_count (none : Option ℕ), List.replicate node_count LENGTH_GUARD)
  return {
    node_count := node_count,
    parents := filled.1,
    lefts := lefts,
    rights := rights,
    left_lengths := left_lengths,
    right_lengths := right_lengths,
    parent_lengths := filled.2,
    names := names,
    root_node_index := root }


/-- The accumulation loop of `compare_profile_positions`
(`brawn/positions.py`): walks `sort_order`, short-circuiting at the first
zero count (later counts are all zero by the sort). -/
def compareLoop (q r : AlignmentPosition) : List ℕ → ℚ
  | [] => 0
  | idx :: rest =>
    let count := q.base_counts.getD idx 0
    if count = 0 then 0
    else count * r.scores.getD idx 0 + compareLoop q r rest

/-- `compare_profile_positions` from `brawn/positions.py`, parametric in
the log oracle `lg` and in `SCORE_CENTER` (which lives in the missing
`brawn/constants.py`). -/
def compare_profile_positions (lg : ℚ → ℚ) (SCORE_CENTER : ℚ)
    (query_position reference_position : AlignmentPosition)
    (alphabet : Alphabet) : ℚ :=
  let score := compareLoop query_position reference_position query_position.sort_order
  if alphabet = .AMINO then
    if score = 0 then -5/2
    else (lg score - SCORE_CENTER)
      * query_position.ungapped_weight * reference_position.ungapped_weight
  else score - SCORE_CENTER

/-- Python list indexing into a positions list: non-negative indices read
directly, negative indices wrap from the end (the source relies on this
exactly once, reading `query_positions[query_length - 2]` when the query
has a single column). -/
def posGet (ps : List AlignmentPosition) (i : ℤ) : AlignmentPosition :=
  if 0 ≤ i then ps.getD i.toNat dummyPosition
  else ps.getD (ps.length - (-i).toNat) dummyPosition

/-- Reads `traceback[i][j]`. -/
def tbGet (tb : List (List ℕ)) (i j : ℕ) : ℕ :=
  (tb.getD i []).getD j 0

/-- Writes `traceback[i][j]`. -/
def tbSet (tb : List (List ℕ)) (i j : ℕ) (v : ℕ) : List (List ℕ) :=
  tb.set i ((tb.getD i []).set j v)

/-- `traceback[i][j] = (traceback[i][j] & ~BIT__M) | bit`; cell values fit
in four bits, so the complement of the 0x03 mask is 0xC. -/
def tbSetM (tb : List (List ℕ)) (i j bit : ℕ) : List (List ℕ) :=
  tbSet tb i j ((tbGet tb i j &&& 0xC) ||| bit)

/-- `row[j] = (row[j] & ~BIT__D) | bit` on traceback row `i` (complement
of 0x04 within four bits is 0xB). -/
def tbSetD (tb : List (List ℕ)) (i j bit : ℕ) : List (List ℕ) :=
  tbSet tb i j ((tbGet tb i j &&& 0xB) ||| bit)

/-- `row[j] = (row[j] & ~BIT__I) | bit` on traceback row `i` (complement
of 0x08 within four bits is 0x7). -/
def tbSetI (tb : List (List ℕ)) (i j bit : ℕ) : List (List ℕ) :=
  tbSet tb i j ((tbGet tb i j &&& 0x7) ||| bit)

/-- Reads a score array entry. -/
def lget (l : List ℚ) (i : ℕ) : ℚ :=
  l.getD i 0

/-- The mutable arrays of the `global_align` DP (`brawn/align.py`): the
three rolling match rows, the delete row, the packed traceback matrix and
the insert-state scalar `iij`. -/
structure DPState where
  prev_match : List ℚ
  current_match : List ℚ
  next_match : List ℚ
  delete_row : List ℚ
  tb : List (List ℕ)
  iij : ℚ
  deriving Repr

/-- `recurse_d` from `global_align` (`brawn/align.py`). -/
def recurse_d (GAP_EXTEND : ℚ) (qp : List AlignmentPosition) (i j : ℕ)
    (st : DPState) : DPState :=
  let dd := lget st.delete_row j + GAP_EXTEND
  let md := lget st.prev_match j + (posGet qp ((i:ℤ) - 1)).score_gap_open
  if dd > md then { st with delete_row := st.delete_row.set j dd }
  else { st with delete_row := st.delete_row.set j md, tb := tbSetD st.tb i j BIT_MD }

/-- `recurse_i` from `global_align` (`brawn/align.py`). -/
def recurse_i (GAP_EXTEND : ℚ) (rp : List AlignmentPosition) (i j : ℕ)
    (st : DPState) : DPState :=
  let iij := st.iij + GAP_EXTEND
  let mi := lget st.current_match (j - 1) + (posGet rp ((j:ℤ) - 1)).score_gap_open
  if mi ≥ iij then { st with iij := mi, tb := tbSetI st.tb i j BIT_MI }
  else { st with iij := iij }

/-- `recurse_m` from `global_align` (`brawn/align.py`); ties go to M over
D over I, exactly as the source comparisons are written. -/
def recurse_m (qp rp : List AlignmentPosition) (i j : ℕ) (st : DPState) : DPState :=
  let dm := lget st.delete_row j + (posGet qp ((i:ℤ) - 1)).score_gap_close
  let im := st.iij + (posGet rp ((j:ℤ) - 1)).score_gap_close
  let mm := lget st.current_match j
  if mm ≥ dm ∧ mm ≥ im then
    { st with next_match := st.next_match.set (j + 1) (lget st.next_match (j + 1) + mm),
              tb := tbSetM st.tb (i + 1) (j + 1) BIT_MM }
  else if dm ≥ mm ∧ dm ≥ im then
    { st with next_match := st.next_match.set (j + 1) (lget st.next_match (j + 1) + dm),
              tb := tbSetM st.tb (i + 1) (j + 1) BIT_DM }
  else
    { st with next_match := st.next_match.set (j + 1) (lget st.next_match (j + 1) + im),
              tb := tbSetM st.tb (i + 1) (j + 1) BIT_IM }

/-- The array setup of `global_align` (`brawn/align.py`) together with
the (1,1) match cell. -/
def globalAlignInitState (lg : ℚ → ℚ) (SCORE_CENTER : ℚ)
    (qp rp : List AlignmentPosition) (alphabet : Alphabet) : DPState :=
  let pref1 := qp.length + 1
  let pref2 := rp.length + 1
  let cmp := fun a b => compare_profile_positions lg SCORE_CENTER a b alphabet
  { prev_match := (List.replicate pref2 SCORE_GUARD).set 0 0,
    current_match := ((List.replicate pref2 (0:ℚ)).set 0 SCORE_GUARD).set 1
      (cmp (posGet qp 0) (posGet rp 0)),
    next_match := List.replicate pref2 0,
    delete_row := List.replicate pref2 SCORE_GUARD,
    tb := tbSetM (List.replicate pref1 (List.replicate pref2 0)) 1 1 BIT_MM,
    iij := SCORE_GUARD }

/-- The body of the first-row loop of `global_align` (`brawn/align.py`,
the `for index in range(2, reference_prefix_length)` loop; smaller `j`
values are the skipped head of the modelled `range`). -/
def globalAlignInitStep (lg : ℚ → ℚ) (SCORE_CENTER GAP_EXTEND : ℚ)
    (qp rp : List AlignmentPosition) (alphabet : Alphabet)
    (st : DPState) (j : ℕ) : DPState :=
  if j < 2 then st else
  let cmp := fun a b => compare_profile_positions lg SCORE_CENTER a b alphabet
  { st with
    current_match := st.current_match.set j
      (cmp (posGet qp 0) (posGet rp ((j:ℤ) - 1)) + (posGet rp 0).score_gap_open
        + ((j:ℤ) - 2) * GAP_EXTEND + (posGet rp ((j:ℤ) - 2)).score_gap_close),
    tb := tbSetM st.tb 1 j BIT_IM }

/-- The full initialisation section of `global_align` (`brawn/align.py`):
the array setup, the (1,1) match cell, and the first row of insert-opened
match cells. -/
def globalAlignInit (lg : ℚ → ℚ) (SCORE_CENTER GAP_EXTEND : ℚ)
    (qp rp : List AlignmentPosition) (alphabet : Alphabet) : DPState :=
  (List.range (rp.length + 1)).foldl
    (globalAlignInitStep lg SCORE_CENTER GAP_EXTEND qp rp alphabet)
    (globalAlignInitState lg SCORE_CENTER qp rp alphabet)

/-- The head of a main row of `global_align` (`brawn/align.py`): the
`iij` / `delete_row[0]` / `current_match[0]` resets and the first-column
match entry, split on `i == 1`. -/
def globalAlignRowStart (lg : ℚ → ℚ) (SCORE_CENTER GAP_EXTEND : ℚ)
    (qp rp : List AlignmentPosition) (alphabet : Alphabet)
    (st : DPState) (i : ℕ) : DPState :=
  let cmp := fun a b => compare_profile_positions lg SCORE_CENTER a b alphabet
  let st := { st with
    iij := SCORE_GUARD,
    delete_row := st.delete_row.set 0
      ((posGet qp 0).score_gap_open + ((i:ℤ) - 1) * GAP_EXTEND),
    current_match := st.current_match.set 0 SCORE_GUARD }
  if i = 1 then
    { st with current_match := st.current_match.set 1 (cmp (posGet qp 0) (posGet rp 0)),
              tb := tbSetM st.tb i 1 BIT_MM }
  else
    { st with
      current_match := st.current_match.set 1
        (cmp (posGet qp ((i:ℤ) - 1)) (posGet rp 0) + (posGet qp 0).score_gap_open
          + ((i:ℤ) - 2) * GAP_EXTEND + (posGet qp ((i:ℤ) - 2)).score_gap_close),
      tb := tbSetM st.tb i 1 BIT_DM }

/-- The body of the `next_match` fill loop of a main row of
`global_align` (`brawn/align.py`, `for j in range(1, reference_length)`;
`j = 0` is the skipped head of the modelled `range`). -/
def globalAlignNextStep (lg : ℚ → ℚ) (SCORE_CENTER : ℚ)
    (qp rp : List AlignmentPosition) (alphabet : Alphabet) (i : ℕ)
    (st : DPState) (j : ℕ) : DPState :=
  if j = 0 then st else
  let cmp := fun a b => compare_profile_positions lg SCORE_CENTER a b alphabet
  { st with next_match := st.next_match.set (j + 1) (cmp (posGet qp i) (posGet rp j)) }

/-- The body of the `RECURSE_D` / `RECURSE_I` / `RECURSE_M` loop of a
main row of `global_align` (`brawn/align.py`, `for j in
range(1, reference_length)`; `j = 0` is the skipped head of the modelled
`range`). -/
def globalAlignRecStep (GAP_EXTEND : ℚ) (qp rp : List AlignmentPosition)
    (i : ℕ) (st : DPState) (j : ℕ) : DPState :=
  if j = 0 then st else
  recurse_m qp rp i j (recurse_i GAP_EXTEND rp i j (recurse_d GAP_EXTEND qp i j st))

/-- The tail of a main row of `global_align` (`brawn/align.py`): the
final `RECURSE_D` / `RECURSE_I` at `j = reference_length` and the
row-buffer rotation. -/
def globalAlignRowEnd (GAP_EXTEND : ℚ) (qp rp : List AlignmentPosition)
    (i : ℕ) (st : DPState) : DPState :=
  let st := recurse_d GAP_EXTEND qp i rp.length st
  let st := recurse_i GAP_EXTEND rp i rp.length st
  { st with
    prev_match := st.current_match,
    current_match := st.next_match,
    next_match := st.prev_match }

/-- One iteration of the main row loop of `global_align`
(`brawn/align.py`), for `i` in `range(1, query_length)` (`i = 0` is the
skipped first value of the modelled range). -/
def globalAlignMidRow (lg : ℚ → ℚ) (SCORE_CENTER GAP_EXTEND : ℚ)
    (qp rp : List AlignmentPosition) (alphabet : Alphabet)
    (st : DPState) (i : ℕ) : DPState :=
  if i = 0 then st else
  globalAlignRowEnd GAP_EXTEND qp rp i
    ((List.range rp.length).foldl (globalAlignRecStep GAP_EXTEND qp rp i)
      ((List.range rp.length).foldl (globalAlignNextStep lg SCORE_CENTER qp rp alphabet i)
        (globalAlignRowStart lg SCORE_CENTER GAP_EXTEND qp rp alphabet st i)))

/-- The head of the final section of `global_align` (`brawn/align.py`):
the last row's `current_match[0]` / `current_match[1]` / `delete_row[0]`
writes. -/
def globalAlignFinalStart (lg : ℚ → ℚ) (SCORE_CENTER GAP_EXTEND : ℚ)
    (qp rp : List AlignmentPosition) (alphabet : Alphabet) (stIn : DPState) :
    DPState :=
  let query_length := qp.length
  let cmp := fun a b => compare_profile_positions lg SCORE_CENTER a b alphabet
  let st := { stIn with current_match := stIn.current_match.set 0 SCORE_GUARD }
  let comparison := cmp (posGet qp ((query_length:ℤ) - 1)) (posGet rp 0)
  let st := { st with
    current_match := st.current_match.set 1
      (comparison + (posGet qp 0).score_gap_open + ((query_length:ℤ) - 2) * GAP_EXTEND
        + (posGet qp ((query_length:ℤ) - 2)).score_gap_close),
    tb := tbSetM st.tb query_length 1 BIT_DM }
  { st with delete_row := st.delete_row.set 0 SCORE_GUARD }

/-- The body of the final `RECURSE_D` sweep of `global_align`
(`brawn/align.py`, `for j in range(1, reference_prefix_length)`; `j = 0`
is the skipped head of the modelled `range`). -/
def globalAlignDStep (GAP_EXTEND : ℚ) (qp : List AlignmentPosition)
    (st : DPState) (j : ℕ) : DPState :=
  if j = 0 then st else recurse_d GAP_EXTEND qp qp.length j st

/-- The body of the final `RECURSE_I` sweep of `global_align`
(`brawn/align.py`, `for j in range(1, reference_prefix_length)`; `j = 0`
is the skipped head of the modelled `range`). -/
def globalAlignIStep (GAP_EXTEND : ℚ) (query_length : ℕ)
    (rp : List AlignmentPosition) (st : DPState) (j : ℕ) : DPState :=
  if j = 0 then st else recurse_i GAP_EXTEND rp query_length j st

/-- The tail of the final section of `global_align` (`brawn/align.py`):
the winning final state (ties M over D over I) and the traceback walk. -/
def globalAlignFinalEnd (qp rp : List AlignmentPosition) (st : DPState) :
    Py (List Edge) :=
  let query_length := qp.length
  let reference_length := rp.length
  let dab := lget st.delete_row reference_length
  let iab := st.iij
  let score := lget st.current_match reference_length
  let edge_type :=
    if iab > (if dab > score then dab else score) then Modification.INSERTION
    else if dab > score then Modification.DELETION
    else Modification.MATCH
  build_path st.tb (query_length : ℤ) (reference_length : ℤ) edge_type

/-- The final section of `global_align` (`brawn/align.py`): the last D/I
row sweeps, the winning final state (ties M over D over I) and the
traceback walk. -/
def globalAlignFinal (lg : ℚ → ℚ) (SCORE_CENTER GAP_EXTEND : ℚ)
    (qp rp : List AlignmentPosition) (alphabet : Alphabet) (stIn : DPState) :
    Py (List Edge) :=
  let pref2 := rp.length + 1
  let st := globalAlignFinalStart lg SCORE_CENTER GAP_EXTEND qp rp alphabet stIn
  let st := (List.range pref2).foldl (globalAlignDStep GAP_EXTEND qp) st
  let st := (List.range pref2).foldl (globalAlignIStep GAP_EXTEND qp.length rp)
    { st with iij := SCORE_GUARD }
  globalAlignFinalEnd qp rp st

/-- `global_align` from `brawn/align.py`, parametric in the log oracle and
the `SCORE_CENTER` / `GAP_EXTEND` constants of the missing
`brawn/constants.py`.  Applies `set_terminal_gaps` to both inputs (their
updated positions are returned alongside the path, modelling the in-place
mutation), runs the affine-gap DP over profile columns with the bit-packed
traceback, and hands the final winner (ties M over D over I) to
`build_path`.  Modelled for non-empty profiles, as in the source (which
would raise `IndexError` on an empty one). -/
def global_align (lg : ℚ → ℚ) (SCORE_CENTER GAP_EXTEND : ℚ)
    (query_positions_in reference_positions_in : List AlignmentPosition)
    (alphabet : Alphabet) :
    Py (List Edge × List AlignmentPosition × List AlignmentPosition) := do
  let qp := set_terminal_gaps query_positions_in
  let rp := set_terminal_gaps reference_positions_in
  let st := (List.range qp.length).foldl
    (globalAlignMidRow lg SCORE_CENTER GAP_EXTEND qp rp alphabet)
    (globalAlignInit lg SCORE_CENTER GAP_EXTEND qp rp alphabet)
  let path ← globalAlignFinal lg SCORE_CENTER GAP_EXTEND qp rp alphabet st
  return (path, qp, rp)

/-- `build_query_result` from `brawn/alignment.py`: emits the next query
character (gaps as "-") at M and D edges and a gap at I edges; exhausting
the sequence early is the Python iterator protocol failing. -/
def build_query_result : List PyChar → List Edge → Py (List Char)
  | _, [] => .ok []
  | chars, e :: rest =>
    match e.type with
    | .INSERTION => do
      let tail ← build_query_result chars rest
      return '-' :: tail
    | _ =>
      match chars with
      | [] => .error (.valueError "StopIteration")
      | c :: cs => do
        let tail ← build_query_result cs rest
        return c.getD '-' :: tail

/-- `build_reference_result` from `brawn/alignment.py`: emits the next
reference character at M and I edges and a gap at D edges. -/
def build_reference_result : List PyChar → List Edge → Py (List Char)
  | _, [] => .ok []
  | chars, e :: rest =>
    match e.type with
    | .DELETION => do
      let tail ← build_reference_result chars rest
      return '-' :: tail
    | _ =>
      match chars with
      | [] => .error (.valueError "StopIteration")
      | c :: cs => do
        let tail ← build_reference_result cs rest
        return c.getD '-' :: tail

/-- `Alignment.column_count`: the length of the (validated, shared)
sequence length. -/
def Alignment.column_count (a : Alignment) : ℕ :=
  (a.seqs.headD []).length

/-- `Alignment.get_weights` / `_build_weights` from `brawn/alignment.py`,
with the lazy cache threaded explicitly: cached weights are returned
as-is, otherwise the guide tree is built and weighted. -/
def alignmentGetWeights (lg : ℚ → ℚ) (a : Alignment) : Py (List ℚ × Alignment) :=
  match a.weights with
  | some w => .ok (w, a)
  | none => do
    let t ← tree_from_alignment lg a.names a.seqs
    let w ← t.get_weights
    return (w, { a with weights := some w })

/-- The `Alignment.positions` property from `brawn/alignment.py`: cached
positions are returned as-is, otherwise `_build_positions` runs (choosing
the score matrix by alphabet) and the result is memoised. -/
def alignmentPositions (lg : ℚ → ℚ) (amino_matrix other_matrix : List (List ℚ))
    (a : Alignment) : Py (List AlignmentPosition × Alignment) :=
  match a.positionsCache with
  | some ps => .ok (ps, a)
  | none => do
    let (w, a) ← alignmentGetWeights lg a
    let matrix := if a.alphabet = .AMINO then amino_matrix else other_matrix
    let ps ← build_positions matrix a.alphabet a.seqs w a.column_count
    return (ps, { a with positionsCache := some ps })

/-- `combine_alignments` from `brawn/alignment.py`: rejects mismatched
alphabets, builds both profiles (lazily, with caching) and runs
`global_align`; the returned alignments carry their (terminal-gap
rewritten) position caches, modelling the source's in-place state. -/
def combine_alignments (lg : ℚ → ℚ) (SCORE_CENTER GAP_EXTEND : ℚ)
    (amino_matrix other_matrix : List (List ℚ)) (query reference : Alignment) :
    Py (List Edge × Alignment × Alignment) := do
  if query.alphabet ≠ reference.alphabet then
    .error (.valueError "alignment alphabets must be the same")
  let (qpos, query) ← alignmentPositions lg amino_matrix other_matrix query
  let (rpos, reference) ← alignmentPositions lg amino_matrix other_matrix reference
  let (path, qpos2, rpos2) ←
    global_align lg SCORE_CENTER GAP_EXTEND qpos rpos reference.alphabet
  return (path, { query with positionsCache := some qpos2 },
          { reference with positionsCache := some rpos2 })

/-- `ResultAlignment.to_dict` from `brawn/alignment.py`: query sequences
first, then reference sequences, each re-aligned through the path; a
duplicate name collapses the dict and raises. -/
def resultToDict (path : List Edge) (query reference : Alignment) :
    Py (List (String × List Char)) := do
  let qseqs ← mapPy (fun seq => build_query_result seq path) query.seqs
  let rseqs ← mapPy (fun seq => build_reference_result seq path) reference.seqs
  let names := query.names ++ reference.names
  if names.Nodup then
    return names.zip (qseqs ++ rseqs)
  else
    .error (.valueError "cannot build dictionary, sequence names are not unique")

/-- A JSON value, as produced by Python's `json` module (`json.load` /
`json.dump` in `brawn/alignment.py`); numbers keep Python's int/float
distinction. -/
inductive Json where
  | null : Json
  | bool (b : Bool) : Json
  | int (n : ℤ) : Json
  | num (q : ℚ) : Json
  | str (s : String) : Json
  | arr (xs : List Json) : Json
  | obj (kvs : List (String × Json)) : Json

mutual

/-- Python `==` / `!=` on loaded JSON values: structural equality, with
values of different types unequal rather than an error. -/
def Json.beq : Json → Json → Bool
  | .null, .null => true
  | .bool a, .bool b => a == b
  | .int a, .int b => a == b
  | .num a, .num b => a == b
  | .str a, .str b => a == b
  | .arr xs, .arr ys => Json.beqList xs ys
  | .obj kvs, .obj kvs2 => Json.beqObj kvs kvs2
  | _, _ => false

/-- Elementwise `Json.beq` on arrays. -/
def Json.beqList : List Json → List Json → Bool
  | [], [] => true
  | x :: xs, y :: ys => Json.beq x y && Json.beqList xs ys
  | _, _ => false

/-- Pairwise `Json.beq` on objects (insertion-ordered dicts). -/
def Json.beqObj : List (String × Json) → List (String × Json) → Bool
  | [], [] => true
  | x :: xs, y :: ys => x.1 == y.1 && Json.beq x.2 y.2 && Json.beqObj xs ys
  | _, _ => false

end

/-- Python subscripting `data[key]` with a string key: a dict lookup
(`KeyError` when absent), a `TypeError` on lists and other values. -/
def jsonGetItem (j : Json) (key : String) : Py Json :=
  match j with
  | .obj kvs =>
    match kvs.lookup key with
    | some v => .ok v
    | none => .error (.keyError key)
  | .arr _ => .error (.typeError "list indices must be integers or slices, not str")
  | _ => .error (.typeError "object is not subscriptable")

/-- Reads a JSON string where the surrounding code requires one. -/
def jsonToStr : Json → Py String
  | .str s => .ok s
  | _ => .error (.typeError "expected a string")

/-- Reads a JSON number (int or float) as a rational. -/
def jsonToRat : Json → Py ℚ
  | .int n => .ok (n : ℚ)
  | .num q => .ok q
  | _ => .error (.typeError "expected a number")

/-- Reads a JSON int as a natural number (the stored `sort_order`
indices). -/
def jsonToNat : Json → Py ℕ
  | .int n => if n < 0 then .error (.typeError "expected a nonnegative int") else .ok n.toNat
  | _ => .error (.typeError "expected an int")

/-- Reads a JSON array. -/
def jsonToList : Json → Py (List Json)
  | .arr xs => .ok xs
  | _ => .error (.typeError "expected a list")

/-- Reads a JSON object of string values as an ordered mapping (the
`data["sequences"]` dict of `Alignment.from_cache_file`). -/
def jsonToStrDict : Json → Py (List (String × String))
  | .obj kvs => mapPy (fun kv => do
      let s ← jsonToStr kv.2
      return (kv.1, s)) kvs
  | _ => .error (.typeError "expected an object")

/-- Python's `str` of an `Alphabet` enum member. -/
def alphabetStr : Alphabet → String
  | .AMINO => "Alphabet.AMINO"
  | .DNA => "Alphabet.DNA"
  | .RNA => "Alphabet.RNA"

/-- The field names of the `AlignmentPosition` dataclass
(`brawn/positions.py`), in declaration order; `dict(vars(self))` lists
exactly these. -/
def positionFieldNames : List String :=
  ["sort_order", "base_counts", "scores", "ungapped_weight",
   "gap_opens", "gap_closes", "score_gap_open", "score_gap_close"]

/-- `AlignmentPosition.to_json` from `brawn/positions.py`:
`dict(vars(self))`, every field under its own name. -/
def positionToJson (p : AlignmentPosition) : Json :=
  .obj [("sort_order", .arr (p.sort_order.map (fun (n : ℕ) => .int (n : ℤ)))),
        ("base_counts", .arr (p.base_counts.map .num)),
        ("scores", .arr (p.scores.map .num)),
        ("ungapped_weight", .num p.ungapped_weight),
        ("gap_opens", .num p.gap_opens),
        ("gap_closes", .num p.gap_closes),
        ("score_gap_open", .num p.score_gap_open),
        ("score_gap_close", .num p.score_gap_close)]

/-- Looks up a required keyword argument of `AlignmentPosition(**data)`:
a missing required dataclass field is a Python `TypeError`. -/
def requireKwarg (kvs : List (String × Json)) (key : String) : Py Json :=
  match kvs.lookup key with
  | some v => .ok v
  | none => .error (.typeError ("missing required argument: " ++ key))

/-- `AlignmentPosition.from_json` from `brawn/positions.py`:
`cls(**data)`.  Keyword arguments outside the dataclass fields are a
`TypeError`; the six default-less fields are required;
`score_gap_open` / `score_gap_close` may be supplied but are overwritten
by `__post_init__` regardless (`mkAlignmentPosition`). -/
def positionFromJson (j : Json) : Py AlignmentPosition := do
  match j with
  | .obj kvs =>
    if !(kvs.map Prod.fst).all (fun k => positionFieldNames.contains k) then
      .error (.typeError "unexpected keyword argument")
    else do
      let sort_order ← requireKwarg kvs "sort_order" >>= jsonToList >>= mapPy jsonToNat
      let base_counts ← requireKwarg kvs "base_counts" >>= jsonToList >>= mapPy jsonToRat
      let scores ← requireKwarg kvs "scores" >>= jsonToList >>= mapPy jsonToRat
      let ungapped_weight ← requireKwarg kvs "ungapped_weight" >>= jsonToRat
      let gap_opens ← requireKwarg kvs "gap_opens" >>= jsonToRat
      let gap_closes ← requireKwarg kvs "gap_closes" >>= jsonToRat
      return mkAlignmentPosition sort_order base_counts scores
        ungapped_weight gap_opens gap_closes
  | _ => .error (.typeError "argument after ** must be a mapping")

/-- `Alignment.to_cache_file` from `brawn/alignment.py`: reading
`self.positions` builds (and memoises) the profile, which in turn
memoises the weights; `assert self._weights` then rejects a missing or
empty weights list, and the emitted JSON object carries the alphabet,
the canonical sequence strings, the weights, the positions and the
version, in that order.  `VERSION` lives in the missing
`brawn/constants.py` and is a parameter here; the returned alignment
models the memoisation. -/
def to_cache_file (lg : ℚ → ℚ) (amino_matrix other_matrix : List (List ℚ))
    (VERSION : String) (a : Alignment) : Py (Json × Alignment) := do
  let (ps, a) ← alignmentPositions lg amino_matrix other_matrix a
  match a.weights with
  | none => .error .assertionError
  | some w =>
    if w.isEmpty then .error .assertionError
    else
      .ok (.obj [("alphabet", .str (alphabetStr a.alphabet)),
                 ("sequences", .obj (a.names.zip
                   (a.seqs.map (fun s => Json.str (String.mk (sequenceToString s)))))),
                 ("weights", .arr (w.map .num)),
                 ("positions", .arr (ps.map positionToJson)),
                 ("version", .str VERSION)], a)

/-- `Alignment.from_cache_file` from `brawn/alignment.py`.  The body is
`none` when the file is not valid JSON (`json.load` raised), which the
source turns into `InvalidCacheFormatError`; afterwards `data["version"]`
is subscripted directly (a `KeyError` if absent), compared against
`VERSION` (`MismatchedCacheVersionError` on mismatch), the positions are
rebuilt via `AlignmentPosition.from_json`, and the constructor re-parses
the stored sequence strings. -/
def from_cache_file (VERSION : String) (body : Option Json) : Py Alignment := do
  match body with
  | none => .error .invalidCacheFormatError
  | some data => do
    let version ← jsonGetItem data "version"
    if !(Json.beq version (.str VERSION)) then
      .error (.mismatchedCacheVersionError "loading outdated cache version")
    else do
      let positions ← jsonGetItem data "positions" >>= jsonToList
        >>= mapPy positionFromJson
      let sequence_by_name ← jsonGetItem data "sequences" >>= jsonToStrDict
      let weights ← jsonGetItem data "weights" >>= jsonToList >>= mapPy jsonToRat
      alignmentNew sequence_by_name (some weights) (some positions)

/-- The alignment of the cache round-trip witness scenario
(`alignmentNew [("query", "GTIV")]`). -/
def c8Alignment : Alignment :=
  { names := ["query"], seqs := [[some 'G', some 'T', some 'I', some 'V']], alphabet := .AMINO, weights := none, positionsCache := none }


/-- The JSON object `to_cache_file` emits for the witness alignment
(score matrix `AMINO_SCORE_MATRIX_MODEL`, log oracle `lgModel`,
version "1"). -/
def c8Json : Json :=
  .obj [("alphabet", .str "Alphabet.AMINO"), ("sequences", .obj [("query", .str "GTIV")]), ("weights", .arr [.num 1]), ("positions", .arr [.obj [("sort_order", .arr [.int 5, .int 0, .int 1, .int 2, .int 3, .int 4, .int 6, .int 7, .int 8, .int 9, .int 10, .int 11, .int 12, .int 13, .int 14, .int 15, .int 16, .int 17, .int 18, .int 19]), ("base_counts", .arr [.num 0, .num 0, .num 0, .num 0, .num 0, .num 1, .num 0, .num 0, .num 0, .num 0, .num 0, .num 0, .num 0, .num 0, .num 0, .num 0, .num 0, .num 0, .num 0, .num 0]), ("scores", .arr [.num (109860003/100000000), .num (81926249/125000000), .num (181874001/200000000), .num (385915011/500000000), .num (150700003/500000000), .num (281414509/50000000), .num (641910017/1000000000), .num (284319997/1000000000), .num (27149601/40000000), .num (305489987/1000000000), .num (377389997/1000000000), .num (101012003/100000000), .num (608510017/1000000000), .num (164989993/250000000), .num (318300009/500000000), .num (51723999/50000000), .num (342175007/500000000), .num (203639999/500000000), .num (360339999/1000000000), .num (178395003/500000000)]), ("ungapped_weight", .num 1), ("gap_opens", .num 1), ("gap_closes", .num 1), ("score_gap_open", .num (-29/20)), ("score_gap_close", .num (-29/20))], .obj [("sort_order", .arr [.int 16, .int 0, .int 1, .int 2, .int 3, .int 4, .int 5, .int 6, .int 7, .int 8, .int 9, .int 10, .int 11, .int 12, .int 13, .int 14, .int 15, .int 17, .int 18, .int 19]), ("base_counts", .arr [.num 0, .num 0, .num 0, .num 0, .num 0, .num 0, .num 0, .num 0, .num 0, .num 0, .num 0, .num 0, .num 0, .num 0, .num 0, .num 0, .num 1, .num 0, .num 0, .num 0]), ("scores", .arr [.num (120372999/100000000), .num (990689993/1000000000), .num (440955013/500000000), .num (22033/25000), .num (142930001/250000000), .num (342175007/500000000), .num (417715013/500000000), .num (220420003/250000000), .num (115912497/125000000), .num (699240029/1000000000), .num (877590001/1000000000), .num (55625999/50000000), .num (166027999/200000000), .num (37241199/40000000), .num (201682493/250000000), .num (30582199/20000000), .num (129110503/50000000), .num (61688751/62500000), .num (78852497/250000000), .num (289770007/500000000)]), ("ungapped_weight", .num 1), ("gap_opens", .num 1), ("gap_closes", .num 1), ("score_gap_open", .num (-29/20)), ("score_gap_close", .num (-29/20))], .obj [("sort_order", .arr [.int 7, .int 0, .int 1, .int 2, .int 3, .int 4, .int 5, .int 6, .int 8, .int 9, .int 10, .int 11, .int 12, .int 13, .int 14, .int 15, .int 16, .int 17, .int 18, .int 19]), ("base_counts", .arr [.num 0, .num 0, .num 0, .num 0, .num 0, .num 0, .num 0, .num 1, .num 0, .num 0, .num 0, .num 0, .num 0, .num 0, .num 0, .num 0, .num 0, .num 0, .num 0, .num 0]), ("scores", .arr [.num 0, .num 0, .num 0, .num 0, .num 0, .num 0, .num 0, .num 0, .num 0, .num 0, .num 0, .num 0, .num 0, .num 0, .num 0, .num 0, .num 0, .num 0, .num 0, .num 0]), ("ungapped_weight", .num 1), ("gap_opens", .num 1), ("gap_closes", .num 1), ("score_gap_open", .num (-29/20)), ("score_gap_close", .num (-29/20))], .obj [("sort_order", .arr [.int 17, .int 0, .int 1, .int 2, .int 3, .int 4, .int 5, .int 6, .int 7, .int 8, .int 9, .int 10, .int 11, .int 12, .int 13, .int 14, .int 15, .int 16, .int 18, .int 19]), ("base_counts", .arr [.num 0, .num 0, .num 0, .num 0, .num 0, .num 0, .num 0, .num 0, .num 0, .num 0, .num 0, .num 0, .num 0, .num 0, .num 0, .num 0, .num 0, .num 1, .num 0, .num 0]), ("scores", .arr [.num (52977997/50000000), .num (60802001/50000000), .num (217785001/500000000), .num (135117501/250000000), .num (456279993/500000000), .num (203639999/500000000), .num (548169971/1000000000), .num (23736701/10000000), .num (69333747/125000000), .num (30074401/20000000), .num (71371001/50000000), .num (506030023/1000000000), .num (56795001/100000000), .num (610849977/1000000000), .num (514219999/1000000000), .num (338835001/500000000), .num (61688751/62500000), .num (26558001/10000000), .num (86838001/200000000), .num (31902501/50000000)]), ("ungapped_weight", .num 1), ("gap_opens", .num 1), ("gap_closes", .num 1), ("score_gap_open", .num (-29/20)), ("score_gap_close", .num (-29/20))]]), ("version", .str "1")]


/-- The witness alignment with its memoised weights and positions, as
returned alongside the JSON by `to_cache_file`. -/
def c8Saved : Alignment :=
  { names := ["query"], seqs := [[some 'G', some 'T', some 'I', some 'V']], alphabet := .AMINO, weights := some [1], positionsCache := some [{ sort_order := [5, 0, 1, 2, 3, 4, 6, 7, 8, 9, 10, 11, 12, 13, 14, 15, 16, 17, 18, 19], base_counts := [0, 0, 0, 0, 0, 1, 0, 0, 0, 0, 0, 0, 0, 0, 0, 0, 0, 0, 0, 0], scores := [(109860003/100000000), (81926249/125000000), (181874001/200000000), (385915011/500000000), (150700003/500000000), (281414509/50000000), (641910017/1000000000), (284319997/1000000000), (27149601/40000000), (305489987/1000000000), (377389997/1000000000), (101012003/100000000), (608510017/1000000000), (164989993/250000000), (318300009/500000000), (51723999/50000000), (342175007/500000000), (203639999/500000000), (360339999/1000000000), (178395003/500000000)], ungapped_weight := 1, gap_opens := 1, gap_closes := 1, score_gap_open := (-29/20), score_gap_close := (-29/20) },
{ sort_order := [16, 0, 1, 2, 3, 4, 5, 6, 7, 8, 9, 10, 11, 12, 13, 14, 15, 17, 18, 19], base_counts := [0, 0, 0, 0, 0, 0, 0, 0, 0, 0, 0, 0, 0, 0, 0, 0, 1, 0, 0, 0], scores := [(120372999/100000000), (990689993/1000000000), (440955013/500000000), (22033/25000), (142930001/250000000), (342175007/500000000), (417715013/500000000), (220420003/250000000), (115912497/125000000), (699240029/1000000000), (877590001/1000000000), (55625999/50000000), (166027999/200000000), (37241199/40000000), (201682493/250000000), (30582199/20000000), (129110503/50000000), (61688751/62500000), (78852497/250000000), (289770007/500000000)], ungapped_weight := 1, gap_opens := 1, gap_closes := 1, score_gap_open := (-29/20), score_gap_close := (-29/20) },
{ sort_order := [7, 0, 1, 2, 3, 4, 5, 6, 8, 9, 10, 11, 12, 13, 14, 15, 16, 17, 18, 19], base_counts := [0, 0, 0, 0, 0, 0, 0, 1, 0, 0, 0, 0, 0, 0, 0, 0, 0, 0, 0, 0], scores := [0, 0, 0, 0, 0, 0, 0, 0, 0, 0, 0, 0, 0, 0, 0, 0, 0, 0, 0, 0], ungapped_weight := 1, gap_opens := 1, gap_closes := 1, score_gap_open := (-29/20), score_gap_close := (-29/20) },
{ sort_order := [17, 0, 1, 2, 3, 4, 5, 6, 7, 8, 9, 10, 11, 12, 13, 14, 15, 16, 18, 19], base_counts := [0, 0, 0, 0, 0, 0, 0, 0, 0, 0, 0, 0, 0, 0, 0, 0, 0, 1, 0, 0], scores := [(52977997/50000000), (60802001/50000000), (217785001/500000000), (135117501/250000000), (456279993/500000000), (203639999/500000000), (548169971/1000000000), (23736701/10000000), (69333747/125000000), (30074401/20000000), (71371001/50000000), (506030023/1000000000), (56795001/100000000), (610849977/1000000000), (514219999/1000000000), (338835001/500000000), (61688751/62500000), (26558001/10000000), (86838001/200000000), (31902501/50000000)], ungapped_weight := 1, gap_opens := 1, gap_closes := 1, score_gap_open := (-29/20), score_gap_close := (-29/20) }] }

/-- Modelled from the spec: a concrete instance of the log oracle,
giving the float natural log to six decimal places at the inputs that the
small-scenario theorems evaluate (the score-matrix entries pinned by the
repository's tests, and 1). -/
def lgModel : ℚ → ℚ := fun x =>
  if x.num = 281414509 ∧ x.den = 50000000 then 863903/500000 else
  if x.num = 342175007 ∧ x.den = 500000000 then -189643/500000 else
  if x.num = 284319997 ∧ x.den = 1000000000 then -251531/200000 else
  if x.num = 203639999 ∧ x.den = 500000000 then -449127/500000 else
  if x.num = 129110503 ∧ x.den = 50000000 then 474323/500000 else
  if x.num = 220420003 ∧ x.den = 250000000 then -62963/500000 else
  if x.num = 61688751 ∧ x.den = 62500000 then -2613/200000 else
  if x.num = 27149601 ∧ x.den = 40000000 then -387517/1000000 else
  if x.num = 115912497 ∧ x.den = 125000000 then -37739/500000 else
  if x.num = 123274997 ∧ x.den = 250000000 then -707043/1000000 else
  if x.num = 69333747 ∧ x.den = 125000000 then -294691/500000 else
  if x.num = 181874001 ∧ x.den = 200000000 then -95003/1000000 else
  if x.num = 440955013 ∧ x.den = 500000000 then -25133/200000 else
  if x.num = 328599989 ∧ x.den = 1000000000 then -556457/500000 else
  if x.num = 217785001 ∧ x.den = 500000000 then -8311/10000 else
  if x.num = 23736701 ∧ x.den = 10000000 then 864437/1000000 else
  if x.num = 26558001 ∧ x.den = 10000000 then 488373/500000 else
  if x.num = 1 ∧ x.den = 1 then 0 else
  0

/-- A concrete well-formed 4-leaf tree (the fixture of the repository's
`test_tree.py`), used to witness the tree-weight theorem. -/
def demoTree : Tree :=
  { node_count := 7,
    parents := [some 4, some 6, some 4, some 5, some 5, some 6, none],
    lefts := [none, none, none, none, some 0, some 3, some 1],
    rights := [none, none, none, none, some 2, some 4, some 5],
    left_lengths := [2, 4, 6, 8, 10, 12, 14],
    right_lengths := [1, 3, 5, 7, 9, 11, 13],
    parent_lengths := [50, 60, 70, 80, 90, 100, 110],
    names := ["A", "B", "C", "D"],
    root_node_index := 6 }

/-- C6: for every similarity `p` in `[0,1]` with `d = 1 - p`,
`calculate_distance p` is `-log(1 - d - d^2/5)` when `d < 0.75`, is `10.0`
when `d > 0.93`, and is otherwise the fixed 181-entry table value at index
`floor((d - 0.75) * 1000 + 0.5)`; in particular `calculate_distance 1.0 = 0`,
`calculate_distance 0.0 = 10.0`, and `calculate_distance 0.5` equals the
Kimura closed form within 1e-9. -/
theorem calculate_distance_cases (p : ℝ) (h0 : 0 ≤ p) (h1 : p ≤ 1) :
    (1 - p < 3/4 →
      calculate_distance p = .ok (-Real.log (1 - (1 - p) - (1 - p)^2 / 5))) ∧
    (1 - p > 93/100 → calculate_distance p = .ok 10) ∧
    (3/4 ≤ 1 - p → 1 - p ≤ 93/100 →
      calculate_distance p =
        .ok ((KIMURA_TABLE.getD (⌊((1 - p) - 3/4) * 1000 + 1/2⌋).toNat 0 : ℚ) : ℝ)) ∧
    calculate_distance 1 = .ok 0 ∧
    calculate_distance 0 = .ok 10 ∧
    (∃ v : ℝ, calculate_distance (1/2) = .ok v ∧
      |v - (-Real.log (1 - (1/2) - (1/2)^2 / 5))| ≤ 1/10^9) := by
  refine ⟨?_, ?_, ?_, ?_, ?_, ?_⟩
  · intro h
    simp only [calculate_distance, if_pos h]
  · intro h
    have hnot : ¬(1 - p < 3/4) := by linarith
    simp only [calculate_distance, if_neg hnot, if_pos h]
  · intro hlo hhi
    have hnot : ¬(1 - p < 3/4) := by linarith
    have hnot2 : ¬(1 - p > 93/100) := by linarith
    have hidx0 : (0:ℤ) ≤ ⌊((1 - p) - 3/4) * 1000 + 1/2⌋ := by
      apply Int.floor_nonneg.mpr
      nlinarith
    have hidx1 : ⌊((1 - p) - 3/4) * 1000 + 1/2⌋ < (181:ℤ) := by
      have : ((1 - p) - 3/4) * 1000 + 1/2 < (181:ℝ) := by nlinarith
      exact Int.floor_lt.mpr (by exact_mod_cast this)
    simp only [calculate_distance, if_neg hnot, if_neg hnot2, kimuraTableGet,
      if_pos (And.intro hidx0 hidx1), Except.map]
    rfl
  · have h : (1:ℝ) - 1 < 3/4 := by norm_num
    simp only [calculate_distance, if_pos h]
    norm_num [Real.log_one]
  · have hnot : ¬((1:ℝ) - 0 < 3/4) := by norm_num
    have h2 : (1:ℝ) - 0 > 93/100 := by norm_num
    simp only [calculate_distance, if_neg hnot, if_pos h2]
  · refine ⟨-Real.log (1 - (1/2) - (1/2)^2 / 5), ?_, by simp⟩
    have h : (1:ℝ) - 1/2 < 3/4 := by norm_num
    simp only [calculate_distance, if_pos h]
    norm_num

/-- Witness for the hypotheses of the C6 theorem, at `p = 1/2`. -/
theorem calculate_distance_cases_witness :
    (0:ℝ) ≤ 1/2 ∧ (1/2:ℝ) ≤ 1 ∧
    calculate_distance (1/2) = .ok (-Real.log (1 - (1 - 1/2) - (1 - 1/2)^2 / 5)) := by
  refine ⟨by norm_num, by norm_num, ?_⟩
  exact (calculate_distance_cases (1/2) (by norm_num) (by norm_num)).1 (by norm_num)


/-- Bind on a successful embedded result. -/
@[simp] theorem py_bind_ok {α β : Type} (x : α) (f : α → Py β) :
    (Except.ok x >>= f : Py β) = f x := rfl

/-- Bind on a raised error. -/
@[simp] theorem py_bind_error {α β : Type} (e : PyError) (f : α → Py β) :
    ((Except.error e : Py α) >>= f) = .error e := rfl

/-- Pure in the embedded monad. -/
@[simp] theorem py_pure {α : Type} (x : α) : (pure x : Py α) = .ok x := rfl

/-- Functor map on a successful embedded result. -/
@[simp] theorem py_map_ok {α β : Type} (g : α → β) (x : α) :
    (g <$> (Except.ok x : Py α)) = .ok (g x) := rfl

/-- Functor map on a raised error. -/
@[simp] theorem py_map_error {α β : Type} (g : α → β) (e : PyError) :
    (g <$> (Except.error e : Py α)) = .error e := rfl

/-- `mapPy` preserves list length on success. -/
theorem mapPy_ok_length {α β : Type} (f : α → Py β) :
    ∀ (l : List α) (r : List β), mapPy f l = .ok r → r.length = l.length := by
  intro l
  induction l with
  | nil =>
    intro r h
    simp only [mapPy] at h
    cases h
    rfl
  | cons x xs ih =>
    intro r h
    simp only [mapPy] at h
    cases hfx : f x with
    | error e => rw [hfx] at h; simp at h
    | ok y =>
      rw [hfx] at h
      simp only [py_bind_ok] at h
      cases hm : mapPy f xs with
      | error e => rw [hm] at h; simp at h
      | ok ys =>
        rw [hm] at h
        simp only [py_bind_ok, py_map_ok, py_pure] at h
        cases h
        simp [ih ys hm]

/-- A successful embedded bind factors through a successful first step. -/
theorem py_bind_eq_ok {α β : Type} {x : Py α} {f : α → Py β} {b : β}
    (h : (x >>= f) = .ok b) : ∃ a, x = .ok a ∧ f a = .ok b := by
  cases x with
  | error e => simp only [py_bind_error] at h; cases h
  | ok a => exact ⟨a, rfl, h⟩

/-- A successful `mapPy` relates inputs and outputs elementwise. -/
theorem mapPy_ok_forall₂ {α β : Type} (f : α → Py β) :
    ∀ (xs : List α) (ys : List β), mapPy f xs = .ok ys →
      List.Forall₂ (fun x y => f x = .ok y) xs ys := by
  intro xs
  induction xs with
  | nil =>
    intro ys h
    simp only [mapPy] at h
    cases h
    exact .nil
  | cons x xs ih =>
    intro ys h
    simp only [mapPy] at h
    obtain ⟨y, hy, h⟩ := py_bind_eq_ok h
    obtain ⟨ys', hys, h⟩ := py_bind_eq_ok h
    simp only [py_pure] at h
    cases h
    exact .cons hy (ih _ hys)

/-- Every member of the right list of a `Forall₂` has a related witness
on the left. -/
theorem forall₂_exists_left {α β : Type} {R : α → β → Prop} :
    ∀ {xs : List α} {ys : List β}, List.Forall₂ R xs ys →
      ∀ y ∈ ys, ∃ x, x ∈ xs ∧ R x y := by
  intro xs ys h
  induction h with
  | nil => intro y hy; cases hy
  | cons hR _ ih =>
    intro y hy
    rcases List.mem_cons.mp hy with rfl | hy
    · exact ⟨_, List.mem_cons_self .., hR⟩
    · obtain ⟨x, hx, hR2⟩ := ih y hy
      exact ⟨x, List.mem_cons_of_mem _ hx, hR2⟩

/-- `mapPy` over a mapped list succeeds when the function inverts the
map pointwise. -/
theorem mapPy_map_id {α β : Type} (f : β → Py α) (g : α → β) :
    ∀ (xs : List α), (∀ x ∈ xs, f (g x) = .ok x) →
      mapPy f (xs.map g) = .ok xs := by
  intro xs
  induction xs with
  | nil => intro _; rfl
  | cons x xs ih =>
    intro h
    simp only [List.map_cons, mapPy]
    rw [h x (List.mem_cons_self x xs), py_bind_ok,
        ih (fun y hy => h y (List.mem_cons_of_mem x hy)), py_bind_ok]
    rfl

/-- The written `sort_order` ints read back as the original naturals. -/
theorem mapPy_jsonToNat_ints (xs : List ℕ) :
    mapPy jsonToNat (xs.map (fun (n : ℕ) => Json.int (n : ℤ))) = .ok xs := by
  apply mapPy_map_id
  intro x _
  simp [jsonToNat]

/-- The written float lists read back as the original rationals. -/
theorem mapPy_jsonToRat_nums (xs : List ℚ) :
    mapPy jsonToRat (xs.map Json.num) = .ok xs :=
  mapPy_map_id _ _ xs (fun _ _ => rfl)

/-- The written name/string pairs read back unchanged. -/
theorem mapPy_strPair (kvs : List (String × String)) :
    mapPy (fun kv => do
        let s ← jsonToStr kv.2
        return (kv.1, s))
      (kvs.map (fun kv => (kv.1, Json.str kv.2))) = .ok kvs :=
  mapPy_map_id _ _ kvs (fun _ _ => rfl)

/-- Reading back the written `sequences` object yields the name/string
pairs unchanged. -/
theorem jsonToStrDict_zip (names : List String) (seqs : List (List PyChar)) :
    jsonToStrDict (.obj (names.zip
        (seqs.map (fun s => Json.str (String.mk (sequenceToString s)))))) =
      .ok (names.zip (seqs.map (fun s => String.mk (sequenceToString s)))) := by
  have hz : names.zip (seqs.map (fun s => Json.str (String.mk (sequenceToString s)))) =
      (names.zip (seqs.map (fun s => String.mk (sequenceToString s)))).map
        (fun kv => (kv.1, Json.str kv.2)) := by
    induction names generalizing seqs with
    | nil => simp
    | cons n ns ih =>
      cases seqs with
      | nil => simp
      | cons s ss => simp [ih ss]
  simp only [jsonToStrDict, hz]
  exact mapPy_strPair _

/-- A character produced by amino parsing re-parses to itself: gaps
render as "-" and come back as gaps, substituted wildcards are the
wildcard symbol, and kept characters are residues or wildcards. -/
theorem sequenceChar_canonical (ch : Char) (p : PyChar)
    (h : sequenceChar .AMINO ch = .ok p) :
    sequenceChar .AMINO (p.getD '-') = .ok p := by
  have hshape : sequenceChar .AMINO ch =
      .ok (if is_gap_char ch then none
           else if !("ACDEFGHIKLMNPQRSTVWY".toList.contains ch)
               && !(['B', 'X', 'Z'].contains ch) then some 'X' else some ch) := by
    simp only [sequenceChar, is_residue, is_wildcard]
    split
    · rfl
    · simp only [py_bind_ok, py_pure]
      split <;> rfl
  rw [hshape] at h
  injection h with h
  subst h
  by_cases h1 : is_gap_char ch = true
  · rw [if_pos h1, Option.getD_none]
    rfl
  · rw [if_neg h1]
    by_cases h2 : (!("ACDEFGHIKLMNPQRSTVWY".toList.contains ch)
        && !(['B', 'X', 'Z'].contains ch)) = true
    · rw [if_pos h2, Option.getD_some]
      rfl
    · rw [if_neg h2, Option.getD_some, hshape, if_neg h1, if_neg h2]

/-- A parsed amino sequence re-parses from its canonical string form to
itself. -/
theorem sequenceFromString_canonical (line : List Char) (s : List PyChar)
    (h : sequenceFromString line .AMINO = .ok s) :
    sequenceFromString (sequenceToString s) .AMINO = .ok s := by
  have hfa := mapPy_ok_forall₂ _ _ _ h
  clear h
  show mapPy (sequenceChar .AMINO) (s.map (fun c => c.getD '-')) = .ok s
  induction hfa with
  | nil => rfl
  | cons h1 _ ih =>
    simp only [List.map_cons, mapPy]
    rw [sequenceChar_canonical _ _ h1, py_bind_ok, ih, py_bind_ok]
    rfl

/-- Every position built by `_build_positions` carries the
`__post_init__` gap scores. -/
theorem build_positions_post (m : List (List ℚ)) (al : Alphabet)
    (seqs : List (List PyChar)) (w : List ℚ) (cc : ℕ)
    (ps : List AlignmentPosition) (h : build_positions m al seqs w cc = .ok ps) :
    ∀ p ∈ ps, p.score_gap_open = p.gap_opens * GAP_OPEN / 2 ∧
      p.score_gap_close = p.gap_closes * GAP_OPEN / 2 := by
  have hfa := mapPy_ok_forall₂ _ _ _ h
  intro p hp
  obtain ⟨col, _, hcol⟩ := forall₂_exists_left hfa p hp
  obtain ⟨counts, hc, hcol⟩ := py_bind_eq_ok hcol
  simp only [py_pure] at hcol
  injection hcol with hcol
  subst hcol
  exact ⟨rfl, rfl⟩

/-- `AlignmentPosition.from_json` inverts `to_json` on any position whose
gap scores satisfy the `__post_init__` invariant (as all built positions
do). -/
theorem positionFromJson_toJson (p : AlignmentPosition)
    (h1 : p.score_gap_open = p.gap_opens * GAP_OPEN / 2)
    (h2 : p.score_gap_close = p.gap_closes * GAP_OPEN / 2) :
    positionFromJson (positionToJson p) = .ok p := by
  simp only [positionToJson, positionFromJson, positionFieldNames, requireKwarg,
    List.map_cons, List.map_nil, List.all_cons, List.all_nil, List.lookup]
  norm_num
  simp only [
    show ("sort_order" == "sort_order") = true from by decide,
    show ("base_counts" == "sort_order") = false from by decide,
    show ("base_counts" == "base_counts") = true from by decide,
    show ("scores" == "sort_order") = false from by decide,
    show ("scores" == "base_counts") = false from by decide,
    show ("scores" == "scores") = true from by decide,
    show ("ungapped_weight" == "sort_order") = false from by decide,
    show ("ungapped_weight" == "base_counts") = false from by decide,
    show ("ungapped_weight" == "scores") = false from by decide,
    show ("ungapped_weight" == "ungapped_weight") = true from by decide,
    show ("gap_opens" == "sort_order") = false from by decide,
    show ("gap_opens" == "base_counts") = false from by decide,
    show ("gap_opens" == "scores") = false from by decide,
    show ("gap_opens" == "ungapped_weight") = false from by decide,
    show ("gap_opens" == "gap_opens") = true from by decide,
    show ("gap_closes" == "sort_order") = false from by decide,
    show ("gap_closes" == "base_counts") = false from by decide,
    show ("gap_closes" == "scores") = false from by decide,
    show ("gap_closes" == "ungapped_weight") = false from by decide,
    show ("gap_closes" == "gap_opens") = false from by decide,
    show ("gap_closes" == "gap_closes") = true from by decide]
  simp only [jsonToList, py_bind_ok, mapPy_jsonToNat_ints, mapPy_jsonToRat_nums,
    jsonToRat, py_pure]
  cases p
  simp only [mkAlignmentPosition, AlignmentPosition.mk.injEq] at h1 h2 ⊢
  simp_all

/-- Summing a list divided elementwise by a constant. -/
theorem sum_map_div (l : List ℚ) (t : ℚ) : (l.map (· / t)).sum = l.sum / t := by
  induction l with
  | nil => simp
  | cons x xs ih => simp [ih, add_div]

/-- Unpacking a successful `_normalise` call. -/
theorem normalise_ok {l ws : List ℚ} (h : normalise l = .ok ws) :
    l.sum ≠ 0 ∧ ws = l.map (· / l.sum) := by
  unfold normalise at h
  split at h
  · exact absurd h (by simp)
  · refine ⟨by assumption, ?_⟩
    cases h
    rfl

/-- A successful `Tree.get_weights` call returns one weight per leaf. -/
theorem get_weights_length (t : Tree) (w : List ℚ) (h : t.get_weights = .ok w) :
    w.length = t.leaf_count := by
  unfold Tree.get_weights at h
  by_cases h0 : t.leaf_count = 0
  · rw [if_pos h0] at h
    cases h
    simp [h0]
  · rw [if_neg h0] at h
    by_cases h1 : t.leaf_count = 1
    · rw [if_pos h1] at h
      cases h
      simp [h1]
    · rw [if_neg h1] at h
      by_cases h2 : t.leaf_count = 2
      · rw [if_pos h2] at h
        cases h
        simp [h2]
      · rw [if_neg h2] at h
        obtain ⟨counts, hc, h⟩ := py_bind_eq_ok h
        obtain ⟨strengths, hs, h⟩ := py_bind_eq_ok h
        obtain ⟨raws, hr, h⟩ := py_bind_eq_ok h
        obtain ⟨hsum, hw⟩ := normalise_ok h
        have hlen := mapPy_ok_length _ _ _ hr
        subst hw
        simp [hlen]

/-- The tree clustered from `n` sequences has `2n - 1` nodes. -/
theorem tree_from_alignment_node_count (lg : ℚ → ℚ) (names : List String)
    (seqs : List (List PyChar)) (t : Tree)
    (h : tree_from_alignment lg names seqs = .ok t) :
    t.node_count = 2 * seqs.length - 1 := by
  simp only [tree_from_alignment] at h
  obtain ⟨st1, h1, h⟩ := py_bind_eq_ok h
  obtain ⟨st2, h2, h⟩ := py_bind_eq_ok h
  simp only [py_pure] at h
  cases h
  rfl

/-- Building weights from scratch yields one weight per sequence and
only fills the cache. -/
theorem alignmentGetWeights_none (lg : ℚ → ℚ) (a : Alignment) (w : List ℚ)
    (a' : Alignment) (hw : a.weights = none)
    (h : alignmentGetWeights lg a = .ok (w, a')) :
    w.length = a.seqs.length ∧ a' = { a with weights := some w } := by
  unfold alignmentGetWeights at h
  rw [hw] at h
  obtain ⟨t, ht, h⟩ := py_bind_eq_ok h
  obtain ⟨w2, hw2, h⟩ := py_bind_eq_ok h
  simp only [py_pure] at h
  injection h with h
  rw [Prod.mk.injEq] at h
  obtain ⟨rfl, rfl⟩ := h
  refine ⟨?_, rfl⟩
  have hlen := get_weights_length t _ hw2
  have hnc := tree_from_alignment_node_count lg a.names a.seqs t ht
  rw [hlen, Tree.leaf_count, hnc]
  omega

/-- Unpacking a successful `Alignment` construction: the input was
non-empty with consistent lengths, the parsed sequences correspond to
the inputs elementwise, and the record is the parsed fields with empty
caches. -/
theorem alignmentNew_ok (input : List (String × String)) (a : Alignment)
    (h : alignmentNew input = .ok a) :
    input ≠ [] ∧
    (∀ kv ∈ input, kv.2.length = (input.headD ("", "")).2.length) ∧
    List.Forall₂ (fun kv s => sequenceFromString kv.2.toList .AMINO = .ok s) input a.seqs ∧
    a.names = input.map Prod.fst ∧ a.alphabet = .AMINO ∧
    a.weights = none ∧ a.positionsCache = none := by
  simp only [alignmentNew] at h
  split at h
  · simp only [py_bind_error] at h
    exact Except.noConfusion h
  · rename_i hne
    try simp only [py_pure, py_bind_ok] at h
    split at h
    · simp only [py_bind_error] at h
      exact Except.noConfusion h
    · rename_i hlen
      try simp only [py_pure, py_bind_ok] at h
      obtain ⟨seqs, hs, h⟩ := py_bind_eq_ok h
      try simp only [py_pure] at h
      cases h
      refine ⟨?_, ?_, mapPy_ok_forall₂ _ _ _ hs, rfl, rfl, rfl, rfl⟩
      · simpa using hne
      · simpa using hlen

/-- Re-parsing the canonical strings of already-parsed sequences zipped
with their names succeeds and reproduces the sequences. -/
theorem mapPy_zip_parse : ∀ (ns : List String) (ss : List (List PyChar)),
    ns.length = ss.length →
    (∀ s ∈ ss, sequenceFromString (sequenceToString s) .AMINO = .ok s) →
    mapPy (fun kv => sequenceFromString kv.2.toList .AMINO)
      (ns.zip (ss.map (fun s => String.mk (sequenceToString s)))) = .ok ss := by
  intro ns
  induction ns with
  | nil =>
    intro ss hlen _
    cases ss with
    | nil => rfl
    | cons s ss => simp at hlen
  | cons n ns ih =>
    intro ss hlen hcan
    cases ss with
    | nil => simp at hlen
    | cons s ss =>
      have ih' := ih ss (by simpa using hlen)
        (fun x hx => hcan x (List.mem_cons_of_mem _ hx))
      simp only [List.zip, List.map_cons, List.zipWith_cons_cons, mapPy,
        String.toList] at ih' ⊢
      rw [hcan s (List.mem_cons_self s ss), py_bind_ok, ih', py_bind_ok]
      rfl

/-- The canonical string of a sequence has one character per cell. -/
theorem mk_sequenceToString_length (s : List PyChar) :
    (String.mk (sequenceToString s)).length = s.length := by
  simp [String.length, sequenceToString]

/-- Rebuilding an alignment from canonical strings with matching weight
and position counts succeeds and reproduces the record (the constructor
run inside `from_cache_file`). -/
theorem alignmentNew_rebuild (ns : List String) (ss : List (List PyChar))
    (w : List ℚ) (ps : List AlignmentPosition)
    (hlen : ns.length = ss.length)
    (hne : ss ≠ [])
    (hcan : ∀ s ∈ ss, sequenceFromString (sequenceToString s) .AMINO = .ok s)
    (hslen : ∀ s ∈ ss, s.length = (ss.headD []).length)
    (hwlen : w.length = ss.length)
    (hplen : ps.length = (ss.headD []).length) :
    alignmentNew (ns.zip (ss.map (fun s => String.mk (sequenceToString s))))
        (some w) (some ps) =
      .ok { names := ns, seqs := ss, alphabet := .AMINO,
            weights := some w, positionsCache := some ps } := by
  cases ss with
  | nil => exact absurd rfl hne
  | cons s0 ss' =>
  cases ns with
  | nil => simp at hlen
  | cons n0 ns' =>
  have hlen' : ns'.length = ss'.length := by simpa using hlen
  have hc2 : ((n0, String.mk (sequenceToString s0)) ::
      ns'.zip (ss'.map fun s => String.mk (sequenceToString s))).all
        (fun kv => decide (kv.2.length = s0.length)) = true := by
    rw [List.all_eq_true]
    intro kv hkv
    obtain ⟨kn, ks⟩ := kv
    rw [decide_eq_true_eq]
    rcases List.mem_cons.mp hkv with heq | hkv
    · cases heq
      exact mk_sequenceToString_length s0
    · have h2 := (List.of_mem_zip hkv).2
      obtain ⟨s, hsmem, rfl⟩ := List.mem_map.mp h2
      rw [mk_sequenceToString_length]
      simpa using hslen s (List.mem_cons_of_mem _ hsmem)
  have hparse : mapPy (fun kv => sequenceFromString kv.2.toList .AMINO)
      ((n0 :: ns').zip ((s0 :: ss').map fun s => String.mk (sequenceToString s)))
        = .ok (s0 :: ss') :=
    mapPy_zip_parse (n0 :: ns') (s0 :: ss') (by simpa using hlen) hcan
  simp only [List.map_cons, List.zip_cons_cons] at hparse
  have hwlen' : w.length = ss'.length + 1 := by simpa using hwlen
  have hplen' : ps.length = s0.length := by simpa using hplen
  simp only [alignmentNew, List.map_cons, List.zip_cons_cons, List.isEmpty_cons,
    Bool.false_eq_true, if_false, ite_false, List.headD_cons,
    mk_sequenceToString_length, hc2, Bool.not_true, List.length_cons,
    List.length_zip, List.length_map, hlen', Nat.min_self, hwlen', hplen',
    py_pure, py_bind_ok]
  rw [hparse, py_bind_ok]
  simp [List.map_fst_zip ns' (ss'.map fun s => String.mk (sequenceToString s)) (by simp [hlen'])]
/-- C7: `Tree.get_weights` returns `[]`, `[1.0]`, `[0.5, 0.5]` for leaf
counts 0, 1, 2; for larger trees it normalises the per-leaf sums of
node strengths (edge length to parent over leaves under the node) along
the path to the root, with raw weights below 1e-4 replaced by 1.0; and
whenever it succeeds on a tree with a positive leaf count the returned
weights are non-negative and sum to exactly 1 (hence within 1e-6). -/
theorem tree_get_weights_spec (t : Tree) :
    (t.leaf_count = 0 → t.get_weights = .ok []) ∧
    (t.leaf_count = 1 → t.get_weights = .ok [1]) ∧
    (t.leaf_count = 2 → t.get_weights = .ok [1/2, 1/2]) ∧
    (∀ counts strengths raws, 3 ≤ t.leaf_count →
        t.node_child_counts = .ok counts →
        t.strengths counts = .ok strengths →
        mapPy (walkWeight t strengths t.node_count) (List.range t.leaf_count) = .ok raws →
        t.get_weights = normalise (raws.map (fun w => if w < 1/10000 then 1 else w))) ∧
    (∀ ws, 0 < t.leaf_count → t.get_weights = .ok ws →
        (∀ w ∈ ws, 0 ≤ w) ∧ ws.sum = 1) := by
  have spec0 : t.leaf_count = 0 → t.get_weights = .ok [] := by
    intro h; simp [Tree.get_weights, h]
  have spec1 : t.leaf_count = 1 → t.get_weights = .ok [1] := by
    intro h; simp [Tree.get_weights, h]
  have spec2 : t.leaf_count = 2 → t.get_weights = .ok [1/2, 1/2] := by
    intro h; simp [Tree.get_weights, h]
  have spec3 : ∀ counts strengths raws, 3 ≤ t.leaf_count →
      t.node_child_counts = .ok counts →
      t.strengths counts = .ok strengths →
      mapPy (walkWeight t strengths t.node_count) (List.range t.leaf_count) = .ok raws →
      t.get_weights = normalise (raws.map (fun w => if w < 1/10000 then 1 else w)) := by
    intro counts strengths raws h3 hc hs hr
    have h0 : ¬(t.leaf_count = 0) := by omega
    have h1 : ¬(t.leaf_count = 1) := by omega
    have h2 : ¬(t.leaf_count = 2) := by omega
    simp only [Tree.get_weights, if_neg h0, if_neg h1, if_neg h2, hc, hs, hr, py_bind_ok]
  refine ⟨spec0, spec1, spec2, spec3, ?_⟩
  intro ws hpos hw
  rcases Nat.lt_or_ge t.leaf_count 3 with hlt | hge
  · have : t.leaf_count = 1 ∨ t.leaf_count = 2 := by omega
    rcases this with h | h
    · rw [spec1 h] at hw
      cases hw
      constructor
      · intro w hwmem
        simp at hwmem
        simp [hwmem]
      · simp
    · rw [spec2 h] at hw
      cases hw
      constructor
      · intro w hwmem
        simp at hwmem
        rcases hwmem with h | h <;> simp [h] <;> norm_num
      · norm_num
  · have h0 : ¬(t.leaf_count = 0) := by omega
    have h1 : ¬(t.leaf_count = 1) := by omega
    have h2 : ¬(t.leaf_count = 2) := by omega
    simp only [Tree.get_weights, if_neg h0, if_neg h1, if_neg h2] at hw
    cases hc : t.node_child_counts with
    | error e => rw [hc] at hw; simp at hw
    | ok counts =>
      rw [hc] at hw
      simp only [py_bind_ok] at hw
      cases hs : t.strengths counts with
      | error e => rw [hs] at hw; simp at hw
      | ok strengths =>
        rw [hs] at hw
        simp only [py_bind_ok] at hw
        cases hr : mapPy (walkWeight t strengths t.node_count) (List.range t.leaf_count) with
        | error e => rw [hr] at hw; simp at hw
        | ok raws =>
          rw [hr] at hw
          simp only [py_bind_ok] at hw
          obtain ⟨hsum, hws⟩ := normalise_ok hw
          have hlen : raws.length = t.leaf_count := by
            have := mapPy_ok_length _ _ _ hr
            simpa using this
          have hguardpos : ∀ w ∈ raws.map (fun w => if w < (1:ℚ)/10000 then 1 else w), 0 < w := by
            intro w hwmem
            simp only [List.mem_map] at hwmem
            obtain ⟨r, _, rfl⟩ := hwmem
            split
            · norm_num
            · rename_i hcase
              push_neg at hcase
              have h00 : (0:ℚ) < 1/10000 := by norm_num
              linarith
          have hne : raws.map (fun w => if w < (1:ℚ)/10000 then 1 else w) ≠ [] := by
            intro hcon
            have : raws = [] := by simpa using hcon
            rw [this] at hlen
            simp at hlen
            omega
          have hsumpos : 0 < (raws.map (fun w => if w < (1:ℚ)/10000 then 1 else w)).sum :=
            List.sum_pos _ hguardpos hne
          subst hws
          constructor
          · intro w hwmem
            simp only [List.mem_map] at hwmem
            obtain ⟨x, ⟨a, ha, rfl⟩, rfl⟩ := hwmem
            exact div_nonneg
              (le_of_lt (hguardpos _ (List.mem_map_of_mem _ ha)))
              (le_of_lt hsumpos)
          · rw [sum_map_div]
            exact div_self hsum

/-- Witness for the hypotheses of the C7 theorem, on the concrete 4-leaf
tree `demoTree`. -/
theorem tree_get_weights_spec_witness :
    (0 < demoTree.leaf_count ∧
      demoTree.get_weights = .ok [77/270, 2/15, 89/270, 34/135]) ∧
    ((∀ w ∈ [(77:ℚ)/270, 2/15, 89/270, 34/135], 0 ≤ w) ∧
      [(77:ℚ)/270, 2/15, 89/270, 34/135].sum = 1) := by
  have h1 : 0 < demoTree.leaf_count := by with_unfolding_all decide
  have h2 : demoTree.get_weights = .ok [77/270, 2/15, 89/270, 34/135] := by
    with_unfolding_all decide
  exact ⟨⟨h1, h2⟩, (tree_get_weights_spec demoTree).2.2.2.2 _ h1 h2⟩


/-- The loop invariant of `build_path`: on success, the per-kind
consumption of the returned edges accounts exactly for the counters of
the edge being walked. -/
theorem buildPathLoop_consumption (tb : List (List ℕ)) :
    ∀ (fuel : ℕ) (edge : Edge) (edges path : List Edge),
      buildPathLoop tb fuel edge edges = .ok path →
      (path.map (fun e => queryStep e.type)).sum =
        (edges.map (fun e => queryStep e.type)).sum
          + edge.query_length - queryStep edge.type ∧
      (path.map (fun e => referenceStep e.type)).sum =
        (edges.map (fun e => referenceStep e.type)).sum
          + edge.reference_length - referenceStep edge.type := by
  intro fuel
  induction fuel with
  | zero =>
    intro edge edges path h
    simp [buildPathLoop] at h
  | succ fuel ih =>
    intro edge edges path h
    simp only [buildPathLoop] at h
    cases hb : tbRead tb edge.query_length edge.reference_length with
    | error e => rw [hb] at h; simp at h
    | ok bits =>
      rw [hb] at h
      simp only [py_bind_ok] at h
      cases hm : get_modification bits edge.type with
      | error e => rw [hm] at h; simp at h
      | ok next =>
        rw [hm] at h
        simp only [py_bind_ok] at h
        split at h
        · rename_i hzero
          obtain ⟨hq0, hr0⟩ := hzero
          simp only [py_pure] at h
          cases h
          constructor <;> linarith
        · rename_i hzero
          cases hmk : mkEdge next (edge.query_length - queryStep edge.type)
              (edge.reference_length - referenceStep edge.type) with
          | error e => rw [hmk] at h; simp at h
          | ok e2 =>
            rw [hmk] at h
            simp only [py_bind_ok] at h
            obtain ⟨h1, h2⟩ := ih e2 (e2 :: edges) path h
            have he2 : e2.type = next ∧
                e2.query_length = edge.query_length - queryStep edge.type ∧
                e2.reference_length = edge.reference_length - referenceStep edge.type := by
              unfold mkEdge at hmk
              split at hmk
              · cases hmk; exact ⟨rfl, rfl, rfl⟩
              · simp at hmk
            obtain ⟨ht, hq, hr⟩ := he2
            simp only [List.map_cons, List.sum_cons] at h1 h2
            rw [ht, hq] at h1
            rw [ht, hr] at h2
            constructor
            · rw [h1]; ring
            · rw [h2]; ring

/-- Edge-kind counts expressed through `queryStep` sums. -/
theorem sum_queryStep_eq_count (l : List Edge) :
    (l.map (fun e => queryStep e.type)).sum =
      (l.countP (fun e => e.type == Modification.MATCH) : ℤ) +
        (l.countP (fun e => e.type == Modification.DELETION) : ℤ) := by
  induction l with
  | nil => simp
  | cons e l ih =>
    cases he : e.type <;>
      simp [List.countP_cons, he, queryStep] at ih ⊢ <;> omega

/-- Edge-kind counts expressed through `referenceStep` sums. -/
theorem sum_referenceStep_eq_count (l : List Edge) :
    (l.map (fun e => referenceStep e.type)).sum =
      (l.countP (fun e => e.type == Modification.MATCH) : ℤ) +
        (l.countP (fun e => e.type == Modification.INSERTION) : ℤ) := by
  induction l with
  | nil => simp
  | cons e l ih =>
    cases he : e.type <;>
      simp [List.countP_cons, he, referenceStep] at ih ⊢ <;> omega

/-- C4: for every path returned by `build_path` (hence by `global_align`,
which returns `build_path`'s result directly) over a query profile of
length `Q ≥ 1` and a reference profile of length `R ≥ 1`, the number of M
edges plus the number of D edges equals `Q`, and the number of M edges
plus the number of I edges equals `R`. -/
theorem build_path_edge_counts (traceback : List (List ℕ)) (Q R : ℤ)
    (last_edge : Modification) (path : List Edge)
    (hQ : 1 ≤ Q) (hR : 1 ≤ R)
    (h : build_path traceback Q R last_edge = .ok path) :
    (path.countP (fun e => e.type == Modification.MATCH) : ℤ) +
        (path.countP (fun e => e.type == Modification.DELETION) : ℤ) = Q ∧
    (path.countP (fun e => e.type == Modification.MATCH) : ℤ) +
        (path.countP (fun e => e.type == Modification.INSERTION) : ℤ) = R := by
  unfold build_path at h
  have hmk : mkEdge last_edge Q R =
      .ok { type := last_edge, query_length := Q, reference_length := R } := by
    unfold mkEdge
    rw [if_pos ⟨by linarith, by linarith⟩]
  rw [hmk] at h
  simp only [py_bind_ok] at h
  obtain ⟨h1, h2⟩ := buildPathLoop_consumption traceback _ _ _ _ h
  simp only [List.map_cons, List.sum_cons, List.map_nil, List.sum_nil] at h1 h2
  rw [sum_queryStep_eq_count] at h1
  rw [sum_referenceStep_eq_count] at h2
  constructor <;> linarith

/-- Witness for the hypotheses of the C4 theorem: a concrete 1x1
traceback whose only path is a single M edge. -/
theorem build_path_edge_counts_witness :
    ((1:ℤ) ≤ 1) ∧
    build_path [[0, 0], [0, 0]] 1 1 .MATCH =
      .ok [{ type := .MATCH, query_length := 1, reference_length := 1 }] ∧
    (([({ type := .MATCH, query_length := 1, reference_length := 1 } :
          Edge)].countP (fun e => e.type == Modification.MATCH) : ℤ) +
        ([({ type := .MATCH, query_length := 1, reference_length := 1 } :
          Edge)].countP (fun e => e.type == Modification.DELETION) : ℤ) = 1 ∧
      ([({ type := .MATCH, query_length := 1, reference_length := 1 } :
          Edge)].countP (fun e => e.type == Modification.MATCH) : ℤ) +
        ([({ type := .MATCH, query_length := 1, reference_length := 1 } :
          Edge)].countP (fun e => e.type == Modification.INSERTION) : ℤ) = 1) := by
  have hb : build_path [[0, 0], [0, 0]] 1 1 .MATCH =
      .ok [{ type := .MATCH, query_length := 1, reference_length := 1 }] := by
    with_unfolding_all decide
  exact ⟨le_refl 1, hb,
    build_path_edge_counts [[0, 0], [0, 0]] 1 1 .MATCH _ (le_refl 1) (le_refl 1) hb⟩


/-- `terminalOpenUpdate` only changes `score_gap_open`. -/
theorem staticFields_terminalOpenUpdate (p : AlignmentPosition) :
    staticFields (terminalOpenUpdate p) = staticFields p ∧
    (terminalOpenUpdate p).score_gap_close = p.score_gap_close := by
  unfold terminalOpenUpdate
  split <;> exact ⟨rfl, rfl⟩

/-- `terminalCloseUpdate` only changes `score_gap_close`. -/
theorem staticFields_terminalCloseUpdate (p : AlignmentPosition) :
    staticFields (terminalCloseUpdate p) = staticFields p ∧
    (terminalCloseUpdate p).score_gap_open = p.score_gap_open := by
  unfold terminalCloseUpdate
  split <;> exact ⟨rfl, rfl⟩

/-- `updateLast` preserves list length. -/
theorem updateLast_length (f : AlignmentPosition → AlignmentPosition) :
    ∀ l : List AlignmentPosition, (updateLast f l).length = l.length := by
  intro l
  induction l with
  | nil => rfl
  | cons p rest ih =>
    cases rest with
    | nil => rfl
    | cons q rest2 => simpa [updateLast] using ih

/-- `updateLast` preserves the untouched fields everywhere. -/
theorem updateLast_staticFields (f : AlignmentPosition → AlignmentPosition)
    (hf : ∀ p, staticFields (f p) = staticFields p) :
    ∀ (l : List AlignmentPosition) (i : ℕ),
      staticFields ((updateLast f l).getD i dummyPosition) =
        staticFields (l.getD i dummyPosition) := by
  intro l
  induction l with
  | nil => intro i; rfl
  | cons p rest ih =>
    intro i
    cases rest with
    | nil =>
      cases i with
      | zero => exact hf p
      | succ j => rfl
    | cons q rest2 =>
      cases i with
      | zero => rfl
      | succ j => exact ih j

/-- `updateLast` leaves every element except the last unchanged. -/
theorem updateLast_getD_of_lt (f : AlignmentPosition → AlignmentPosition) :
    ∀ (l : List AlignmentPosition) (i : ℕ), i + 1 < l.length →
      (updateLast f l).getD i dummyPosition = l.getD i dummyPosition := by
  intro l
  induction l with
  | nil => intro i h; rfl
  | cons p rest ih =>
    intro i h
    cases rest with
    | nil => simp at h
    | cons q rest2 =>
      cases i with
      | zero => rfl
      | succ j =>
        have : j + 1 < (q :: rest2).length := by simpa using h
        simpa [updateLast] using ih j this

/-- `updateLast` applies its function exactly to the last element. -/
theorem updateLast_getD_last (f : AlignmentPosition → AlignmentPosition) :
    ∀ l : List AlignmentPosition, l ≠ [] →
      (updateLast f l).getD (l.length - 1) dummyPosition =
        f (l.getD (l.length - 1) dummyPosition) := by
  intro l
  induction l with
  | nil => intro h; exact absurd rfl h
  | cons p rest ih =>
    intro _
    cases rest with
    | nil => rfl
    | cons q rest2 =>
      have hne : (q :: rest2 : List AlignmentPosition) ≠ [] := by simp
      have hlen : (p :: q :: rest2 : List AlignmentPosition).length - 1 =
          ((q :: rest2 : List AlignmentPosition).length - 1) + 1 := by
        simp
      rw [hlen]
      simpa [updateLast] using ih hne


/-- C2 counterexample: the claim that built profile positions are never
mutated is false — `global_align` (align.py line 22) applies
`set_terminal_gaps` to its inputs, which rewrites the first built
position's `score_gap_open` of the query `{query: "GTIV"}` from -1.45
to 0. -/
theorem set_terminal_gaps_mutates_positions :
    (do
      let a ← alignmentNew [("query", "GTIV")]
      let ps ← build_positions AMINO_SCORE_MATRIX_MODEL a.alphabet a.seqs [1] 4
      return (((set_terminal_gaps ps).headD dummyPosition).score_gap_open,
              (ps.headD dummyPosition).score_gap_open) : Py _) =
      .ok (0, -29/20) ∧ (0 : ℚ) ≠ -29/20 := by
  constructor
  · with_unfolding_all decide
  · norm_num

/-- C2 (amended): `set_terminal_gaps` — the only core operation that
writes to built positions, applied by `global_align` to both inputs —
changes nothing except the first position's `score_gap_open` and the last
position's `score_gap_close` (for lists of length > 1), which it zeroes
under the source's `score_gap_open ≠ SCORE_GUARD` guards; every other
field of every position, and every interior position entirely, is
unchanged. -/
theorem set_terminal_gaps_frame (ps : List AlignmentPosition) :
    (set_terminal_gaps ps).length = ps.length ∧
    (∀ i, staticFields ((set_terminal_gaps ps).getD i dummyPosition) =
      staticFields (ps.getD i dummyPosition)) ∧
    (∀ i, 0 < i → i + 1 < ps.length →
      (set_terminal_gaps ps).getD i dummyPosition = ps.getD i dummyPosition) ∧
    ((set_terminal_gaps ps).headD dummyPosition).score_gap_open =
      (if (ps.headD dummyPosition).score_gap_open ≠ SCORE_GUARD then 0
       else (ps.headD dummyPosition).score_gap_open) ∧
    ((set_terminal_gaps ps).headD dummyPosition).score_gap_close =
      (ps.headD dummyPosition).score_gap_close ∧
    (1 < ps.length →
      ((set_terminal_gaps ps).getD (ps.length - 1) dummyPosition).score_gap_close =
        (if (ps.getD (ps.length - 1) dummyPosition).score_gap_open ≠ SCORE_GUARD then 0
         else (ps.getD (ps.length - 1) dummyPosition).score_gap_close) ∧
      ((set_terminal_gaps ps).getD (ps.length - 1) dummyPosition).score_gap_open =
        (ps.getD (ps.length - 1) dummyPosition).score_gap_open) := by
  match ps with
  | [] =>
    refine ⟨rfl, fun i => rfl, fun i h1 h2 => rfl, ?_, rfl, ?_⟩
    · simp [set_terminal_gaps, dummyPosition, mkAlignmentPosition, SCORE_GUARD]
    · intro h; simp at h
  | [p] =>
    refine ⟨rfl, ?_, ?_, ?_, ?_, ?_⟩
    · intro i
      cases i with
      | zero => exact (staticFields_terminalOpenUpdate p).1
      | succ j => rfl
    · intro i h1 h2
      simp only [List.length_singleton] at h2
      exact absurd h2 (by omega)
    · show (terminalOpenUpdate p).score_gap_open = _
      unfold terminalOpenUpdate
      split <;> rename_i hcond <;> simp [hcond]
    · exact (staticFields_terminalOpenUpdate p).2
    · intro h; simp at h
  | p :: q :: rest =>
    have hne : (q :: rest : List AlignmentPosition) ≠ [] := by simp
    refine ⟨?_, ?_, ?_, ?_, ?_, ?_⟩
    · show (terminalOpenUpdate p :: updateLast terminalCloseUpdate (q :: rest)).length = _
      simp [updateLast_length]
    · intro i
      cases i with
      | zero => exact (staticFields_terminalOpenUpdate p).1
      | succ j =>
        show staticFields ((updateLast terminalCloseUpdate (q :: rest)).getD j dummyPosition) = _
        exact updateLast_staticFields _ (fun r => (staticFields_terminalCloseUpdate r).1) _ j
    · intro i h1 h2
      cases i with
      | zero => exact absurd h1 (by simp)
      | succ j =>
        show (updateLast terminalCloseUpdate (q :: rest)).getD j dummyPosition = _
        apply updateLast_getD_of_lt
        simpa using h2
    · show (terminalOpenUpdate p).score_gap_open = _
      unfold terminalOpenUpdate
      split <;> rename_i hcond <;> simp [hcond]
    · exact (staticFields_terminalOpenUpdate p).2
    · intro _
      have hl : (p :: q :: rest : List AlignmentPosition).length - 1 =
          ((q :: rest : List AlignmentPosition).length - 1) + 1 := by simp
      have hstep : (set_terminal_gaps (p :: q :: rest)).getD
            ((p :: q :: rest : List AlignmentPosition).length - 1) dummyPosition =
          terminalCloseUpdate ((p :: q :: rest : List AlignmentPosition).getD
            ((p :: q :: rest : List AlignmentPosition).length - 1) dummyPosition) := by
        rw [hl]
        show (updateLast terminalCloseUpdate (q :: rest)).getD
            ((q :: rest : List AlignmentPosition).length - 1) dummyPosition = _
        rw [updateLast_getD_last _ _ hne]
        rfl
      rw [hstep]
      constructor
      · unfold terminalCloseUpdate
        split <;> rename_i hcond <;> simp [hcond]
      · exact (staticFields_terminalCloseUpdate _).2

/-- Witness for the hypotheses of the (amended) C2 theorem, on a concrete
two-position list. -/
theorem set_terminal_gaps_frame_witness :
    (0 < 1 ∧ 1 + 1 < ([dummyPosition, dummyPosition, dummyPosition] :
        List AlignmentPosition).length) ∧
    (set_terminal_gaps [dummyPosition, dummyPosition, dummyPosition]).getD 1 dummyPosition =
      ([dummyPosition, dummyPosition, dummyPosition] :
        List AlignmentPosition).getD 1 dummyPosition := by
  refine ⟨⟨by norm_num, by norm_num⟩, ?_⟩
  exact (set_terminal_gaps_frame [dummyPosition, dummyPosition, dummyPosition]).2.2.1 1
    (by norm_num) (by norm_num)


/-- C5: `get_fractional_weighted_counts` on the amino alignment
`{A: "BA-", B: "AZX"}` with sequence weights `[0.2, 0.8]` returns, for
column 0, A=0.8, D=0.1, N=0.1 and all other entries 0; for column 1,
A=0.2, E=0.4, Q=0.4 and all other entries 0; and for column 2, exactly
0.05 in every one of the 20 entries. -/
theorem counts_small_amino_example :
    (do
      let a ← alignmentNew [("A", "BA-"), ("B", "AZX")]
      let c0 ← get_fractional_weighted_counts a.alphabet a.seqs [1/5, 4/5] 0
      let c1 ← get_fractional_weighted_counts a.alphabet a.seqs [1/5, 4/5] 1
      let c2 ← get_fractional_weighted_counts a.alphabet a.seqs [1/5, 4/5] 2
      return (c0, c1, c2) : Py _) =
    .ok ([4/5, 0, 1/10, 0, 0, 0, 0, 0, 0, 0, 0, 1/10, 0, 0, 0, 0, 0, 0, 0, 0],
         [1/5, 0, 0, 2/5, 0, 0, 0, 0, 0, 0, 0, 0, 0, 2/5, 0, 0, 0, 0, 0, 0],
         List.replicate 20 (1/20)) := by
  with_unfolding_all decide

set_option maxRecDepth 400000 in
/-- C1: merging the single-sequence query alignment `{query: "GTIV"}`
with the reference alignment `{A: "GT-DVG", B: "GTK-VG"}` via
`combine_alignments` (amino alphabet, weights derived by the core)
produces exactly the merged alignment
`{query: "GT--IV", A: "GT-DVG", B: "GTK-VG"}`, with the query sequence
first followed by the reference sequences in original order. -/
theorem combine_alignments_small_example :
    (do
      let query ← alignmentNew [("query", "GTIV")]
      let reference ← alignmentNew [("A", "GT-DVG"), ("B", "GTK-VG")]
      let (path, q2, r2) ←
        combine_alignments lgModel 0 (-1/10) AMINO_SCORE_MATRIX_MODEL [] query reference
      resultToDict path q2 r2)
      = .ok [("query", ['G', 'T', '-', '-', 'I', 'V']),
             ("A", ['G', 'T', '-', 'D', 'V', 'G']),
             ("B", ['G', 'T', 'K', '-', 'V', 'G'])] := by
  with_unfolding_all rfl

/-- C8: writing any constructor-produced MSA with `to_cache_file` and
reloading the emitted JSON with `from_cache_file` reproduces the saved
alignment record exactly — same names, sequences, weights, and positions
field-by-field (exact equality, which subsumes the claim's 1e-9
tolerance); the record also keeps the original's names, sequences and
alphabet. -/
theorem cache_round_trip (lg : ℚ → ℚ) (am om : List (List ℚ)) (VERSION : String)
    (input : List (String × String)) (a a' : Alignment) (json : Json)
    (hnew : alignmentNew input = .ok a)
    (hsave : to_cache_file lg am om VERSION a = .ok (json, a')) :
    from_cache_file VERSION (some json) = .ok a' ∧
    a'.names = a.names ∧ a'.seqs = a.seqs ∧ a'.alphabet = a.alphabet := by
  obtain ⟨hne, hlens, hfa, hnames, halpha, hwnone, hpnone⟩ := alignmentNew_ok input a hnew
  obtain ⟨anames, aseqs, aalpha, aw, apc⟩ := a
  dsimp only at hnames halpha hwnone hpnone hfa hsave ⊢
  subst hnames
  subst halpha
  subst hwnone
  subst hpnone
  cases input with
  | nil => exact absurd rfl hne
  | cons kv0 input' =>
  cases hfa with
  | cons h0 hfa0 =>
  rename_i s0 ss
  have hfa : List.Forall₂
      (fun kv s => sequenceFromString kv.2.toList .AMINO = .ok s)
      (kv0 :: input') (s0 :: ss) := .cons h0 hfa0
  -- unpack the save
  unfold to_cache_file at hsave
  obtain ⟨pa, hap, hsave⟩ := py_bind_eq_ok hsave
  obtain ⟨ps, a1⟩ := pa
  unfold alignmentPositions at hap
  dsimp only at hap
  obtain ⟨wa, hgw, hap⟩ := py_bind_eq_ok hap
  obtain ⟨w, a2⟩ := wa
  obtain ⟨hwlen, rfl⟩ := alignmentGetWeights_none lg _ w a2 rfl hgw
  dsimp only at hap hwlen
  simp only [eq_self_iff_true, if_true, ite_true] at hap
  obtain ⟨ps2, hbp, hap⟩ := py_bind_eq_ok hap
  try simp only [py_pure] at hap
  injection hap with hap
  rw [Prod.mk.injEq] at hap
  obtain ⟨rfl, rfl⟩ := hap
  dsimp only at hsave
  cases hwe : w.isEmpty with
  | true =>
    rw [hwe] at hsave
    simp only [eq_self_iff_true, if_true, ite_true] at hsave
    exact Except.noConfusion hsave
  | false =>
    rw [hwe] at hsave
    simp only [Bool.false_eq_true, if_false, ite_false] at hsave
    injection hsave with hsave
    rw [Prod.mk.injEq] at hsave
    obtain ⟨rfl, rfl⟩ := hsave
    refine ⟨?_, rfl, rfl, rfl⟩
    -- derived facts for the reconstruction
    have hflen : (kv0 :: input').length = (s0 :: ss).length := hfa.length_eq
    have hcan : ∀ s ∈ s0 :: ss,
        sequenceFromString (sequenceToString s) .AMINO = .ok s := by
      intro s hs
      obtain ⟨kv, _, hkv⟩ := forall₂_exists_left hfa s hs
      exact sequenceFromString_canonical _ _ hkv
    have hslen : ∀ s ∈ s0 :: ss, s.length = ((s0 :: ss).headD []).length := by
      intro s hs
      obtain ⟨kv, hkvmem, hkv⟩ := forall₂_exists_left hfa s hs
      have h1 : s.length = kv.2.toList.length := mapPy_ok_length _ _ _ hkv
      have h2 : s0.length = kv0.2.toList.length := mapPy_ok_length _ _ _ h0
      have h3 : kv.2.length = kv0.2.length := by
        simpa using hlens kv hkvmem
      simp only [List.headD_cons]
      rw [h1, h2]
      exact h3
    have hpost := build_positions_post _ _ _ _ _ _ hbp
    have hps : mapPy positionFromJson (ps2.map positionToJson) = .ok ps2 :=
      mapPy_map_id _ _ ps2
        (fun p hp => positionFromJson_toJson p (hpost p hp).1 (hpost p hp).2)
    have hplen : ps2.length = ((s0 :: ss).headD []).length := by
      have := mapPy_ok_length _ _ _ hbp
      simpa [Alignment.column_count] using this
    have hrebuild := alignmentNew_rebuild (List.map Prod.fst (kv0 :: input'))
      (s0 :: ss) w ps2 (by simpa using hflen) (by simp) hcan hslen
      (by simpa using hwlen) hplen
    simp only [from_cache_file, jsonGetItem, List.lookup,
      show ("version" == "alphabet") = false from by decide,
      show ("version" == "sequences") = false from by decide,
      show ("version" == "weights") = false from by decide,
      show ("version" == "positions") = false from by decide,
      show ("version" == "version") = true from by decide,
      show ("positions" == "alphabet") = false from by decide,
      show ("positions" == "sequences") = false from by decide,
      show ("positions" == "weights") = false from by decide,
      show ("positions" == "positions") = true from by decide,
      show ("sequences" == "alphabet") = false from by decide,
      show ("sequences" == "sequences") = true from by decide,
      show ("weights" == "alphabet") = false from by decide,
      show ("weights" == "sequences") = false from by decide,
      show ("weights" == "weights") = true from by decide,
      Json.beq, beq_self_eq_true, Bool.not_true, Bool.false_eq_true, if_false,
      ite_false, jsonToList, py_bind_ok, hps, jsonToStrDict_zip,
      mapPy_jsonToRat_nums, py_pure]
    exact hrebuild

/-- C8 witness: the round trip at the concrete single-sequence alignment
`{query: "GTIV"}` under the modelled constants. -/
theorem cache_round_trip_witness :
    from_cache_file "1" (some c8Json) = .ok c8Saved ∧
    c8Saved.names = c8Alignment.names ∧ c8Saved.seqs = c8Alignment.seqs ∧
    c8Saved.alphabet = c8Alignment.alphabet :=
  cache_round_trip lgModel AMINO_SCORE_MATRIX_MODEL [] "1" [("query", "GTIV")]
    c8Alignment c8Saved c8Json (by with_unfolding_all rfl)
    (by with_unfolding_all rfl)

/-- C3 counterexample: feeding `from_cache_file` valid JSON that is
missing the required keys (here the empty object) raises `KeyError`, not
the distinct invalid-cache-format error the claim asserts. -/
theorem from_cache_file_missing_key_keyerror :
    from_cache_file "1" (some (.obj [])) = .error (.keyError "version") := rfl

/-- C3 (amended): a body that is not valid JSON raises the distinct
`InvalidCacheFormatError`; valid JSON whose `version` entry differs from
the current version raises the distinct `MismatchedCacheVersionError`;
but valid JSON missing a required key raises a plain `KeyError` (shown
here for `version`, the first key read), not the invalid-cache-format
error. -/
theorem from_cache_file_error_modes (V : String) (kvs : List (String × Json)) :
    from_cache_file V none = .error .invalidCacheFormatError ∧
    (∀ v, kvs.lookup "version" = some v → Json.beq v (.str V) = false →
      from_cache_file V (some (.obj kvs)) =
        .error (.mismatchedCacheVersionError "loading outdated cache version")) ∧
    (kvs.lookup "version" = none →
      from_cache_file V (some (.obj kvs)) = .error (.keyError "version")) := by
  refine ⟨rfl, ?_, ?_⟩
  · intro v hv hne
    simp [from_cache_file, jsonGetItem, hv, hne]
  · intro hv
    simp [from_cache_file, jsonGetItem, hv]

/-- C3 witness: the version-mismatch and missing-key branches at
concrete inputs. -/
theorem from_cache_file_error_modes_witness :
    from_cache_file "1" (some (.obj [("version", Json.str "2")])) =
      .error (.mismatchedCacheVersionError "loading outdated cache version") ∧
    from_cache_file "1" (some (.obj [("alphabet", Json.str "x")])) =
      .error (.keyError "version") :=
  ⟨(from_cache_file_error_modes "1" [("version", Json.str "2")]).2.1
      (Json.str "2") rfl rfl,
   (from_cache_file_error_modes "1" [("alphabet", Json.str "x")]).2.2 rfl⟩

/-- C10: for every (non-None, non-empty) character, both `is_residue` and
`is_wildcard` raise `NotImplementedError` on the RNA alphabet instead of
returning a boolean, so RNA cannot be used with residue classification. -/
theorem rna_classification_not_implemented (c : Char) :
    is_residue (some c) .RNA =
      .error (.notImplementedError "unhandled alphabet type: 'RNA'") ∧
    is_wildcard (some c) .RNA =
      .error (.notImplementedError "unhandled alphabet type: 'RNA'") := by
  exact ⟨rfl, rfl⟩

end Brawn

